import Mathlib

/-
Verification development for the marketplace/plugin packaging pipeline of the
claude-designer repository (scripts/marketplace/*.py).

Shallow embedding conventions:
  - JSON values are modelled by the inductive type JValue; a JSON object is an
    ordered association list (Python dicts preserve insertion order, and
    json.load / json.dump round-trip that order).  Machine-written manifests
    have pairwise distinct keys.
  - Filesystem state is modelled per script by a small structure holding the
    directory listings and parsed file contents the script actually reads.
    A field of type Option (Option Manifest) reads: none = file absent,
    some none = file present but not valid JSON, some (some m) = parsed object.
  - Python functions that can raise are modelled in Except; an uncaught
    exception makes the interpreter exit with a nonzero status and nothing
    further is written.
  - Strings are compared and sliced by code points, exactly as Python does;
    the py* helpers below mirror the Python string methods used by the code.
  - The prose content of generated markdown files is not modelled: no claim
    under verification mentions file contents, only file names and manifests.
-/

inductive JValue where
  | str (s : String)
  | num (n : Int)
  | boolean (b : Bool)
  | null
  | arr (elems : List JValue)
  | obj (fields : List (String × JValue))

abbrev Manifest := List (String × JValue)

/-- Observer used to tell the str constructor from the others (JValue has no
derivable decidable equality because of the nested lists). -/
def JValue.isStr : JValue → Bool
  | .str _ => true
  | _ => false

/-- Python d[key] read on an object: the value at the first matching key. -/
def getKey : Manifest → String → Option JValue
  | [], _ => none
  | (k, v) :: rest, key => if k = key then some v else getKey rest key

/-- Python d[key] = v on an object: replace in place, else append at the end. -/
def setKey : Manifest → String → JValue → Manifest
  | [], key, v => [(key, v)]
  | (k, w) :: rest, key, v =>
    if k = key then (key, v) :: rest else (k, w) :: setKey rest key v

/-- Python del d[key] on an object (keys of machine-written manifests are
pairwise distinct, so removing every pair with the key is del). -/
def delKey : Manifest → String → Manifest
  | [], _ => []
  | (k, v) :: rest, key =>
    if k = key then delKey rest key else (k, v) :: delKey rest key

/-- Python d.get(key, dflt). -/
def getD (m : Manifest) (key : String) (dflt : JValue) : JValue :=
  match getKey m key with
  | some v => v
  | none => dflt

/-- Generic association-list lookup, for the hard-coded configuration tables. -/
def assocGet {α : Type} : List (String × α) → String → Option α
  | [], _ => none
  | (k, v) :: rest, key => if k = key then some v else assocGet rest key

/-- Python s.startswith(p), by code points. -/
def pyStartsWith (s p : String) : Bool := p.data.isPrefixOf s.data

/-- Python s.endswith(p), by code points. -/
def pyEndsWith (s p : String) : Bool := p.data.isSuffixOf s.data

/-- Python s.lstrip("./"): drop every leading character that is a dot or a
slash (lstrip strips by character set, not by prefix). -/
def pyLstripDotSlash (s : String) : String :=
  String.mk (s.data.dropWhile (fun c => c == ('.') || c == ('/')))

/-- Index of the last dot in the list, counting from i; none if there is none.
Helper for the pathlib stem computation. -/
def lastDotIdxAux : List Char → Nat → Option Nat
  | [], _ => none
  | c :: rest, i =>
    match lastDotIdxAux rest (i + 1) with
    | some j => some j
    | none => if c = ('.') then some i else none

/-- pathlib Path(f).stem: the file name minus its last suffix; a dot at
position 0 does not start a suffix (Path(".py").stem is ".py"). -/
def pyStem (f : String) : String :=
  match lastDotIdxAux f.data 0 with
  | some i => if i = 0 then f else String.mk (f.data.take i)
  | none => f

/-- Python string comparison: lexicographic on code points. -/
def lexLe : List Char → List Char → Bool
  | [], _ => true
  | _ :: _, [] => false
  | a :: as, b :: bs =>
    if a.toNat < b.toNat then true
    else if b.toNat < a.toNat then false
    else lexLe as bs

def insertSorted (x : String) : List String → List String
  | [] => [x]
  | y :: ys => if lexLe x.data y.data then x :: y :: ys else y :: insertSorted x ys

/-- Python sorted() on filenames of one directory: stable ascending sort. -/
def sortStrings : List String → List String
  | [] => []
  | x :: xs => insertSorted x (sortStrings xs)

/-
fix_plugin_manifests.py, fix_plugin_manifest (lines 15-55).
The function reads one plugin.json, normalizes it and writes it back; it is a
pure transformation of the parsed object.  The only exception site is
manifest["repository"]["url"] when the repository object has no url key
(KeyError), modelled by the none result.
-/

/-- fix_plugin_manifests.py: author string becomes an object with name/email. -/
def fixAuthor (m : Manifest) : Manifest :=
  match getKey m ("author") with
  | some (JValue.str s) =>
    setKey m ("author")
      (JValue.obj [(("name"), JValue.str s),
                   (("email"), JValue.str ("oladotun.olatunji@gmail.com"))])
  | _ => m

/-- fix_plugin_manifests.py: repository object is flattened to its url value;
a repository object without url raises KeyError (none). -/
def fixRepository (m : Manifest) : Option Manifest :=
  match getKey m ("repository") with
  | some (JValue.obj fields) =>
    match getKey fields ("url") with
    | some v => some (setKey m ("repository") v)
    | none => none
  | _ => some m

/-- fix_plugin_manifests.py: a string path field gets a leading ./ when it
does not already start with one. -/
def fixPathField (m : Manifest) (key : String) : Manifest :=
  match getKey m key with
  | some (JValue.str s) =>
    if pyStartsWith s ("./") then m
    else setKey m key (JValue.str (("./") ++ s))
  | _ => m

/-- fix_plugin_manifests.py fix_plugin_manifest: author, repository, the three
path fields, then removal of the unrecognized keys category/bundle/includes;
the result is written back to the same file. -/
def fix_plugin_manifest (m : Manifest) : Option Manifest :=
  match fixRepository (fixAuthor m) with
  | none => none
  | some m2 =>
    some (delKey (delKey (delKey
      (fixPathField (fixPathField (fixPathField m2 ("commands")) ("agents")) ("skills"))
      ("category")) ("bundle")) ("includes"))

/-
fix_agent_command_paths.py (lines 15-63).
-/

/-- One plugin directory as fix_agent_command_paths.py sees it: the parsed
manifest (none when .claude-plugin/plugin.json is absent) and the file
listings of the commands/ and agents/ subdirectories (none when the
subdirectory is absent). -/
structure PluginDirFS where
  manifest : Option Manifest
  commandsFiles : Option (List String)
  agentsFiles : Option (List String)

/-- fix_agent_command_paths.py get_md_files: the sorted *.md names of the
subdirectory, each rendered as ./subdir/name; [] when the directory is
absent. -/
def get_md_files (files : Option (List String)) (subdir : String) : List String :=
  match files with
  | none => []
  | some fs =>
    (sortStrings (fs.filter (fun f => pyEndsWith f (".md")))).map
      (fun f => ("./") ++ subdir ++ ("/") ++ f)

/-- One conversion block of fix_agent_command_paths.py fix_plugin_manifest
(the code repeats it verbatim for commands and for agents): when the value at
key is a string ending in a slash and the discovered .md list is nonempty,
replace it by the array of discovered paths and flag the change. -/
def acpStep (m : Manifest) (key : String) (files : Option (List String)) :
    Manifest × Bool :=
  match getKey m key with
  | some (JValue.str s) =>
    if pyEndsWith s ("/") then
      let items := get_md_files files key
      if items.isEmpty then (m, false)
      else (setKey m key (JValue.arr (items.map JValue.str)), true)
    else (m, false)
  | _ => (m, false)

/-- fix_agent_command_paths.py fix_plugin_manifest: convert a commands/agents
value that is a string ending in a slash into the array of discovered .md
paths, when at least one was discovered; write back only if something
changed.  The result is some m when the file is rewritten with m, none when
the file is left untouched. -/
def fix_plugin_manifest_acp (p : PluginDirFS) : Option Manifest :=
  match p.manifest with
  | none => none
  | some m =>
    let step1 := acpStep m ("commands") p.commandsFiles
    let step2 := acpStep step1.1 ("agents") p.agentsFiles
    if step1.2 || step2.2 then some step2.1 else none

/-
generate_plugin.py (lines 27-607).
-/

/-- SKILL_CATEGORIES value: category plus tags for one skill. -/
structure CatInfo where
  category : String
  tags : List String
  deriving DecidableEq

/-- generate_plugin.py SKILL_CATEGORIES (lines 28-60). -/
def SKILL_CATEGORIES : List (String × CatInfo) :=
  [(("threejs-webgl"), ⟨("3d-graphics"), [("webgl"), ("threejs"), ("3d"), ("graphics"), ("webgpu")]⟩),
   (("gsap-scrolltrigger"), ⟨("animation"), [("gsap"), ("animation"), ("scroll"), ("scrolltrigger")]⟩),
   (("react-three-fiber"), ⟨("3d-graphics"), [("react"), ("threejs"), ("3d"), ("r3f"), ("webgl")]⟩),
   (("motion-framer"), ⟨("animation"), [("motion"), ("framer-motion"), ("react"), ("animation")]⟩),
   (("babylonjs-engine"), ⟨("3d-graphics"), [("babylonjs"), ("3d"), ("webgl"), ("game-engine")]⟩),
   (("aframe-webxr"), ⟨("3d-graphics"), [("aframe"), ("webxr"), ("vr"), ("ar"), ("3d")]⟩),
   (("lightweight-3d-effects"), ⟨("3d-graphics"), [("zdog"), ("vanta"), ("vanilla-tilt"), ("lightweight"), ("3d")]⟩),
   (("playcanvas-engine"), ⟨("3d-graphics"), [("playcanvas"), ("webgl"), ("game-engine"), ("3d")]⟩),
   (("pixijs-2d"), ⟨("2d-graphics"), [("pixijs"), ("2d"), ("webgl"), ("canvas"), ("sprites")]⟩),
   (("locomotive-scroll"), ⟨("scroll"), [("locomotive"), ("smooth-scroll"), ("parallax"), ("scroll")]⟩),
   (("barba-js"), ⟨("transitions"), [("barba"), ("page-transitions"), ("routing"), ("spa")]⟩),
   (("react-spring-physics"), ⟨("animation"), [("react-spring"), ("physics"), ("animation"), ("spring")]⟩),
   (("animated-component-libraries"), ⟨("components"), [("magic-ui"), ("react-bits"), ("components"), ("animation")]⟩),
   (("scroll-reveal-libraries"), ⟨("scroll"), [("aos"), ("scroll-reveal"), ("animation"), ("scroll")]⟩),
   (("animejs"), ⟨("animation"), [("animejs"), ("timeline"), ("svg"), ("animation")]⟩),
   (("lottie-animations"), ⟨("animation"), [("lottie"), ("after-effects"), ("json"), ("animation")]⟩),
   (("blender-web-pipeline"), ⟨("3d-authoring"), [("blender"), ("gltf"), ("export"), ("pipeline"), ("3d")]⟩),
   (("spline-interactive"), ⟨("3d-authoring"), [("spline"), ("no-code"), ("3d"), ("visual-editor")]⟩),
   (("rive-interactive"), ⟨("animation"), [("rive"), ("interactive"), ("state-machine"), ("animation")]⟩),
   (("substance-3d-texturing"), ⟨("3d-authoring"), [("substance"), ("texturing"), ("pbr"), ("materials")]⟩),
   (("web3d-integration-patterns"), ⟨("integration"), [("integration"), ("patterns"), ("3d"), ("animation")]⟩),
   (("modern-web-design"), ⟨("design"), [("design"), ("trends"), ("ux"), ("web")]⟩)]

/-- SKILL.md frontmatter lookup, Python dict semantics: the last occurrence of
a duplicated key wins (the parse loop overwrites). -/
def metaGet : List (String × String) → String → Option String
  | [], _ => none
  | (k, v) :: rest, key =>
    match metaGet rest key with
    | some w => some w
    | none => if k = key then some v else none

/-- generate_plugin.py _generate_manifest (lines 152-185): the plugin.json
object written for a skill, given the parsed SKILL.md frontmatter. -/
def pluginManifest (skill_name : String) (meta : List (String × String)) : Manifest :=
  let skill_title := (metaGet meta ("name")).getD skill_name
  let description :=
    (metaGet meta ("description")).getD (skill_title ++ (" skill for Claude Code"))
  let info := (assocGet SKILL_CATEGORIES skill_name).getD ⟨("general"), [skill_name]⟩
  [(("name"), JValue.str skill_name),
   (("version"), JValue.str ("1.0.0")),
   (("description"), JValue.str description),
   (("author"), JValue.str ("Claude Design Skillstack")),
   (("license"), JValue.str ("Apache-2.0")),
   (("homepage"), JValue.str ("https://github.com/freshtechbro/claudedesignskills")),
   (("repository"), JValue.obj [(("type"), JValue.str ("git")),
     (("url"), JValue.str ("https://github.com/freshtechbro/claudedesignskills.git"))]),
   (("keywords"), JValue.arr (info.tags.map JValue.str)),
   (("category"), JValue.str info.category),
   (("skills"), JValue.str ("skills/")),
   (("commands"), JValue.str ("commands/")),
   (("agents"), JValue.str ("agents/"))]

/-- generate_plugin.py _generate_commands (lines 200-233) together with
_generate_generic_commands (lines 265-323): the names of the markdown files
written into the commands/ directory of the plugin.  The argument is the
listing of the scripts/ directory of the skill (none when absent).  With at
least one *.py script the files are one stem.md per script; otherwise the two
generic files setup.md and help.md. -/
def generatedCommandFiles (scriptsDir : Option (List String)) : List String :=
  match scriptsDir with
  | none => [("setup.md"), ("help.md")]
  | some files =>
    let pys := files.filter (fun f => pyEndsWith f (".py"))
    if pys.isEmpty then [("setup.md"), ("help.md")]
    else pys.map (fun f => pyStem f ++ (".md"))

/-- One skill directory as generate_plugin.py sees it: skillMd is none when
SKILL.md is absent, some none when its YAML frontmatter regex does not match,
some (some meta) when the frontmatter parses to the given key/value pairs;
scriptsDir is the listing of scripts/ (none when absent). -/
structure SkillDirFS where
  name : String
  skillMd : Option (Option (List (String × String)))
  scriptsDir : Option (List String)

/-- Filesystem for generate_plugin.py: the .claude/skills directory listing
(none when the directory itself is absent). -/
structure GenPluginFS where
  skillsDir : Option (List SkillDirFS)

def lookupSkill (fs : GenPluginFS) (name : String) : Option SkillDirFS :=
  match fs.skillsDir with
  | none => none
  | some ds => ds.find? (fun d => d.name == name)

/-- What one generate_plugin.py run produces for a skill. -/
structure GeneratedPlugin where
  manifest : Manifest
  commandFiles : List String

/-- generate_plugin.py PluginGenerator construction plus generate(): raises
FileNotFoundError when SKILL.md is absent and ValueError when the frontmatter
regex does not match; otherwise writes the manifest and the command files. -/
def generate_plugin_run (fs : GenPluginFS) (skill_name : String) :
    Except String GeneratedPlugin :=
  match lookupSkill fs skill_name with
  | none => Except.error (("SKILL.md not found in .claude/skills/") ++ skill_name)
  | some d =>
    match d.skillMd with
    | none => Except.error (("SKILL.md not found in .claude/skills/") ++ skill_name)
    | some none =>
      Except.error (("No YAML frontmatter found in .claude/skills/") ++ skill_name ++ ("/SKILL.md"))
    | some (some meta) =>
      Except.ok ⟨pluginManifest skill_name meta, generatedCommandFiles d.scriptsDir⟩

/-- generate_plugin.py main (lines 572-602): exit status of the process.  No
argument prints usage and exits 1; --all iterates all skills catching every
per-skill exception (the loop itself only raises when the skills directory is
absent, from iterdir) and falls off main with status 0; a single skill run
propagates any generation exception, which terminates the interpreter with
status 1. -/
def generate_plugin_main_exit (argv : List String) (fs : GenPluginFS) : Nat :=
  match argv with
  | [] => 1
  | arg :: _ =>
    if arg == ("--all") then
      match fs.skillsDir with
      | none => 1
      | some _ => 0
    else
      match generate_plugin_run fs arg with
      | Except.error _ => 1
      | Except.ok _ => 0

/-
generate_bundle.py (lines 22-290).
-/

/-- One BUNDLES value (generate_bundle.py lines 23-59). -/
structure BundleConfig where
  title : String
  description : String
  skills : List String
  category : String
  tags : List String
  deriving DecidableEq

def coreBundleConfig : BundleConfig :=
  ⟨("Core 3D & Animation"),
   ("Complete core 3D and animation stack with Three.js, GSAP, React Three Fiber, Framer Motion, and Babylon.js"),
   [("threejs-webgl"), ("gsap-scrolltrigger"), ("react-three-fiber"), ("motion-framer"), ("babylonjs-engine")],
   ("bundle"),
   [("bundle"), ("3d"), ("animation"), ("core"), ("complete-stack")]⟩

def extendedBundleConfig : BundleConfig :=
  ⟨("Extended 3D & Scroll"),
   ("Extended 3D graphics and smooth scroll stack with A-Frame, lightweight effects, PlayCanvas, PixiJS, Locomotive Scroll, and Barba.js"),
   [("aframe-webxr"), ("lightweight-3d-effects"), ("playcanvas-engine"), ("pixijs-2d"), ("locomotive-scroll"), ("barba-js")],
   ("bundle"),
   [("bundle"), ("3d"), ("scroll"), ("effects"), ("transitions")]⟩

def animationBundleConfig : BundleConfig :=
  ⟨("Animation & Components"),
   ("Comprehensive animation and component libraries with React Spring, Magic UI, React Bits, AOS, Anime.js, and Lottie"),
   [("react-spring-physics"), ("animated-component-libraries"), ("scroll-reveal-libraries"), ("animejs"), ("lottie-animations")],
   ("bundle"),
   [("bundle"), ("animation"), ("components"), ("ui"), ("motion")]⟩

def authoringBundleConfig : BundleConfig :=
  ⟨("3D Authoring & Motion"),
   ("Professional 3D authoring and motion graphics pipeline with Blender, Spline, Rive, and Substance 3D"),
   [("blender-web-pipeline"), ("spline-interactive"), ("rive-interactive"), ("substance-3d-texturing")],
   ("bundle"),
   [("bundle"), ("authoring"), ("pipeline"), ("motion-graphics"), ("3d")]⟩

def metaBundleConfig : BundleConfig :=
  ⟨("Meta Skills"),
   ("Integration patterns and modern web design guidelines for building cohesive 3D/animation experiences"),
   [("web3d-integration-patterns"), ("modern-web-design")],
   ("bundle"),
   [("bundle"), ("meta"), ("integration"), ("design"), ("patterns")]⟩

/-- generate_bundle.py BUNDLES (lines 23-59). -/
def BUNDLES : List (String × BundleConfig) :=
  [(("core-3d-animation"), coreBundleConfig),
   (("extended-3d-scroll"), extendedBundleConfig),
   (("animation-components"), animationBundleConfig),
   (("authoring-motion"), authoringBundleConfig),
   (("meta-skills"), metaBundleConfig)]

/-- generate_bundle.py _generate_manifest (lines 105-131): the plugin.json
object written for a bundle. -/
def bundleManifest (bundle_name : String) (cfg : BundleConfig) : Manifest :=
  [(("name"), JValue.str bundle_name),
   (("version"), JValue.str ("1.0.0")),
   (("description"), JValue.str cfg.description),
   (("author"), JValue.str ("Claude Design Skillstack")),
   (("license"), JValue.str ("Apache-2.0")),
   (("homepage"), JValue.str ("https://github.com/freshtechbro/claudedesignskills")),
   (("repository"), JValue.obj [(("type"), JValue.str ("git")),
     (("url"), JValue.str ("https://github.com/freshtechbro/claudedesignskills.git"))]),
   (("keywords"), JValue.arr (cfg.tags.map JValue.str)),
   (("category"), JValue.str cfg.category),
   (("bundle"), JValue.boolean true),
   (("includes"), JValue.arr (cfg.skills.map JValue.str)),
   (("skills"), JValue.str ("skills/")),
   (("commands"), JValue.str ("commands/")),
   (("agents"), JValue.str ("agents/"))]

/-- The *.md files of one directory listing (none when the directory is
absent), in listing order, as glob("*.md") iterates them. -/
def mdFilter (o : Option (List String)) : List String :=
  match o with
  | none => []
  | some fs => fs.filter (fun f => pyEndsWith f (".md"))

/-- generate_bundle.py _aggregate_commands (lines 152-169): for every member
skill whose individual plugin has a commands/ directory, each command file f
is copied into the bundle commands/ directory as skill-f.  The function
returns the destination names written; individualCommands gives the listing
of .claude/plugins/individual/skill/commands (none when absent). -/
def aggregate_commands (cfg : BundleConfig)
    (individualCommands : String → Option (List String)) : List String :=
  cfg.skills.flatMap (fun skill =>
    (mdFilter (individualCommands skill)).map (fun f => skill ++ ("-") ++ f))

/-- generate_bundle.py main (lines 248-285): exit status.  No argument exits
1; --all catches all per-bundle exceptions (none arise in the model) and
exits 0; an unknown bundle name exits 1; a known one generates and exits 0. -/
def generate_bundle_main_exit (argv : List String) : Nat :=
  match argv with
  | [] => 1
  | arg :: _ =>
    if arg == ("--all") then 0
    else if (assocGet BUNDLES arg).isSome then 0 else 1

/-
generate_marketplace.py (lines 17-149).
-/

/-- One plugin directory entry as generate_marketplace.py and
validate_marketplace.py iterate them: iterdir also yields plain files
(isDir false, skipped); manifest is the .claude-plugin/plugin.json state. -/
structure MPluginDir where
  name : String
  isDir : Bool
  manifest : Option (Option Manifest)

/-- generate_marketplace.py _collect_individual_plugins entry construction
(lines 82-91): manifest["name"] raises KeyError when absent (error); the
other fields use .get defaults. -/
def individualEntry (dirName : String) (m : Manifest) : Except Unit Manifest :=
  match getKey m ("name") with
  | none => Except.error ()
  | some nm =>
    Except.ok
      [(("name"), nm),
       (("source"), JValue.str (("./individual/") ++ dirName)),
       (("version"), getD m ("version") (JValue.str ("1.0.0"))),
       (("description"), getD m ("description") (JValue.str (""))),
       (("category"), getD m ("category") (JValue.str ("general"))),
       (("tags"), getD m ("keywords") (JValue.arr [])),
       (("author"), getD m ("author") (JValue.str (""))),
       (("license"), getD m ("license") (JValue.str ("Apache-2.0")))]

/-- generate_marketplace.py _collect_bundle_plugins entry construction
(lines 119-130). -/
def bundleEntry (dirName : String) (m : Manifest) : Except Unit Manifest :=
  match getKey m ("name") with
  | none => Except.error ()
  | some nm =>
    Except.ok
      [(("name"), nm),
       (("source"), JValue.str (("./bundles/") ++ dirName)),
       (("version"), getD m ("version") (JValue.str ("1.0.0"))),
       (("description"), getD m ("description") (JValue.str (""))),
       (("category"), getD m ("category") (JValue.str ("bundle"))),
       (("tags"), getD m ("keywords") (JValue.arr [])),
       (("bundle"), JValue.boolean true),
       (("includes"), getD m ("includes") (JValue.arr [])),
       (("author"), getD m ("author") (JValue.str (""))),
       (("license"), getD m ("license") (JValue.str ("Apache-2.0")))]

/-- The shared collection loop of generate_marketplace.py (lines 69-94,
106-133): skip non-directories, skip directories without a manifest (warning
only), crash on a manifest that is not valid JSON (json.load raises), build
one entry per remaining directory, in listing order. -/
def collectPlugins (mkEntry : String → Manifest → Except Unit Manifest) :
    List MPluginDir → Except Unit (List Manifest)
  | [] => Except.ok []
  | d :: rest =>
    if d.isDir then
      match d.manifest with
      | none => collectPlugins mkEntry rest
      | some none => Except.error ()
      | some (some m) =>
        match mkEntry d.name m with
        | Except.error e => Except.error e
        | Except.ok entry =>
          match collectPlugins mkEntry rest with
          | Except.error e => Except.error e
          | Except.ok entries => Except.ok (entry :: entries)
    else collectPlugins mkEntry rest

def collectGroup (mkEntry : String → Manifest → Except Unit Manifest) :
    Option (List MPluginDir) → Except Unit (List Manifest)
  | none => Except.ok []
  | some ds => collectPlugins mkEntry ds

/-- Filesystem for generate_marketplace.py: the listings (in sorted iteration
order) of .claude/plugins/individual and .claude/plugins/bundles, each none
when the directory is absent. -/
structure MarketplaceFS where
  individual : Option (List MPluginDir)
  bundles : Option (List MPluginDir)

/-- generate_marketplace.py generate (lines 23-59): the marketplace.json
object, or an uncaught exception (error) in which case nothing is written. -/
def generate_marketplace (fs : MarketplaceFS) : Except Unit Manifest :=
  match collectGroup individualEntry fs.individual with
  | Except.error e => Except.error e
  | Except.ok ind =>
    match collectGroup bundleEntry fs.bundles with
    | Except.error e => Except.error e
    | Except.ok bun =>
      Except.ok
        [(("name"), JValue.str ("claude-design-skillstack")),
         (("owner"), JValue.obj
           [(("name"), JValue.str ("Claude Design Skillstack")),
            (("url"), JValue.str ("https://github.com/freshtechbro/claudedesignskills"))]),
         (("metadata"), JValue.obj
           [(("description"), JValue.str ("Professional design agency skillstack for 3D/WebGL, animation, and modern web development. Comprehensive collection covering Three.js, GSAP, React Three Fiber, Framer Motion, Babylon.js, and more. Includes 22 individual plugins + 5 category bundles.")),
            (("version"), JValue.str ("1.0.0")),
            (("pluginRoot"), JValue.str ("./.claude/plugins")),
            (("homepage"), JValue.str ("https://github.com/freshtechbro/claudedesignskills")),
            (("repository"), JValue.str ("https://github.com/freshtechbro/claudedesignskills"))]),
         (("plugins"), JValue.arr ((ind ++ bun).map JValue.obj))]

def generate_marketplace_main_exit (fs : MarketplaceFS) : Nat :=
  match generate_marketplace fs with
  | Except.error _ => 1
  | Except.ok _ => 0

/-- The plugin directories of a group that carry a manifest file: these are
exactly the ones that contribute a marketplace entry. -/
def countManifests (o : Option (List MPluginDir)) : Nat :=
  ((o.getD []).filter (fun d => d.isDir && d.manifest.isSome)).length

/-- The names of the existing plugin directories of a group. -/
def dirNames (o : Option (List MPluginDir)) : List String :=
  ((o.getD []).filter (fun d => d.isDir)).map (fun d => d.name)

/-- A marketplace source string resolves on the generator filesystem: it is
./individual/n or ./bundles/n for a plugin directory n that exists under the
scanned plugins root. -/
def sourceResolves (fs : MarketplaceFS) (s : String) : Prop :=
  (∃ n, n ∈ dirNames fs.individual ∧ s = ("./individual/") ++ n) ∨
  (∃ n, n ∈ dirNames fs.bundles ∧ s = ("./bundles/") ++ n)

/-
validate_marketplace.py (lines 17-243).
-/

/-- Python str() of a manifest value for interpolation into error messages:
exact for strings and absent values; composite values get a schematic
rendering (no claim under verification reads these message parts). -/
def pyStr : Option JValue → String
  | none => ("None")
  | some (JValue.str s) => s
  | some (JValue.num n) => toString n
  | some (JValue.boolean b) => if b then ("True") else ("False")
  | some JValue.null => ("None")
  | some (JValue.arr _) => ("<list>")
  | some (JValue.obj _) => ("<dict>")

/-- validate_marketplace.py _validate_plugin_entry (lines 94-109).  Error ()
models an uncaught TypeError: a non-object entry or a non-string source makes
the Python code crash on the in / startswith operations (model boundary: for
some exotic non-object entries Python would instead record errors; no claim
exercises those). -/
def validate_plugin_entry (pathExists : String → Bool) (i : Nat) (entry : JValue) :
    Except Unit (List String) :=
  match entry with
  | JValue.obj fields =>
    let missingName :=
      if (getKey fields ("name")).isNone
      then [("marketplace.json plugins[") ++ Nat.repr i ++ ("]: Missing 'name'")] else []
    let missingSource :=
      if (getKey fields ("source")).isNone
      then [("marketplace.json plugins[") ++ Nat.repr i ++ ("]: Missing 'source'")] else []
    match getKey fields ("source") with
    | some (JValue.str source) =>
      if pyStartsWith source ("./") then
        if pathExists (pyLstripDotSlash source) then Except.ok (missingName ++ missingSource)
        else
          let nm := match getKey fields ("name") with
            | none => ("unknown")
            | some v => pyStr (some v)
          Except.ok (missingName ++ missingSource ++
            [("Plugin '") ++ nm ++ ("': Source path not found - ") ++ source])
      else Except.ok (missingName ++ missingSource)
    | some _ => Except.error ()
    | none => Except.ok (missingName ++ missingSource)
  | _ => Except.error ()

def validateEntries (pathExists : String → Bool) : Nat → List JValue → Except Unit (List String)
  | _, [] => Except.ok []
  | i, e :: rest =>
    match validate_plugin_entry pathExists i e with
    | Except.error u => Except.error u
    | Except.ok a =>
      match validateEntries pathExists (i + 1) rest with
      | Except.error u => Except.error u
      | Except.ok b => Except.ok (a ++ b)

/-- validate_marketplace.py _validate_marketplace_json (lines 43-92), on the
marketplace.json state (absent / invalid JSON / parsed object; a top-level
JSON value that is not an object is outside the model).  Returns the errors
and warnings recorded, or error () for an uncaught exception. -/
def validate_marketplace_json (mkt : Option (Option Manifest))
    (pathExists : String → Bool) : Except Unit (List String × List String) :=
  match mkt with
  | none => Except.ok ([("marketplace.json not found")], [])
  | some none => Except.ok ([("marketplace.json: Invalid JSON - <JSONDecodeError>")], [])
  | some (some m) =>
    let reqErrs :=
      ([("name"), ("owner"), ("metadata"), ("plugins")].filter
        (fun f => (getKey m f).isNone)).map
        (fun f => ("marketplace.json: Missing required field '") ++ f ++ ("'"))
    let nameErrs :=
      match getKey m ("name") with
      | none => []
      | some (JValue.str s) =>
        if s.isEmpty then [("marketplace.json: 'name' cannot be empty")] else []
      | some _ => [("marketplace.json: 'name' must be a string")]
    let ownerErrs :=
      match getKey m ("owner") with
      | none => ([], [])
      | some (JValue.obj of) =>
        ((if (getKey of ("name")).isNone then [("marketplace.json: owner.name is required")] else []),
         (if (getKey of ("url")).isNone then [("marketplace.json: owner.url is recommended")] else []))
      | some _ => ([("marketplace.json: 'owner' must be an object")], [])
    match getKey m ("plugins") with
    | none => Except.ok (reqErrs ++ nameErrs ++ ownerErrs.1, ownerErrs.2)
    | some (JValue.arr entries) =>
      match validateEntries pathExists 0 entries with
      | Except.error u => Except.error u
      | Except.ok es => Except.ok (reqErrs ++ nameErrs ++ ownerErrs.1 ++ es, ownerErrs.2)
    | some _ =>
      Except.ok (reqErrs ++ nameErrs ++ ownerErrs.1 ++
        [("marketplace.json: 'plugins' must be an array")], ownerErrs.2)

/-- One plugin directory as validate_marketplace.py sees it. -/
structure VPluginDir where
  name : String
  isDir : Bool
  hasClaudePluginDir : Bool
  manifest : Option (Option Manifest)
  hasSkillsDir : Bool
  skillSubdirCount : Nat
  commandsMdCount : Option Nat
  agentsMdCount : Option Nat

/-- validate_marketplace.py _validate_plugin (lines 145-207): the errors and
warnings recorded for one plugin directory. -/
def validate_plugin (p : VPluginDir) : List String × List String :=
  let dirErrs :=
    (if p.hasClaudePluginDir then []
     else [p.name ++ (": Missing required directory '.claude-plugin'")]) ++
    (if p.hasSkillsDir then []
     else [p.name ++ (": Missing required directory 'skills'")])
  match p.manifest with
  | none => (dirErrs ++ [p.name ++ (": plugin.json not found")], [])
  | some none => (dirErrs ++ [p.name ++ (": Invalid JSON in plugin.json - <JSONDecodeError>")], [])
  | some (some m) =>
    let missing :=
      ([("name"), ("version"), ("description")].filter
        (fun f => (getKey m f).isNone)).map
        (fun f => p.name ++ (": plugin.json missing '") ++ f ++ ("'"))
    let nameOk :=
      match getKey m ("name") with
      | some (JValue.str s) => s == p.name
      | _ => false
    let nameErrs :=
      if nameOk then []
      else [p.name ++ (": plugin.json name '") ++ pyStr (getKey m ("name")) ++
        ("' doesn't match directory name")]
    let skillsErrs :=
      if ¬ p.hasSkillsDir then [p.name ++ (": skills/ directory not found")]
      else if p.skillSubdirCount = 0 then [p.name ++ (": No skills found in skills/ directory")]
      else []
    let warns :=
      (if p.commandsMdCount.isNone then [p.name ++ (": No commands directory found")] else []) ++
      (if p.agentsMdCount.isNone then [p.name ++ (": No agents directory found")] else [])
    (dirErrs ++ missing ++ nameErrs ++ skillsErrs, warns)

/-- The loop bodies of _validate_individual_plugins and
_validate_bundle_plugins: validate every plugin directory in order,
accumulating errors and warnings. -/
def validatePluginsFold : List VPluginDir → List String × List String
  | [] => ([], [])
  | d :: rest =>
    let r := validate_plugin d
    let acc := validatePluginsFold rest
    (r.1 ++ acc.1, r.2 ++ acc.2)

/-- validate_marketplace.py _validate_individual_plugins /
_validate_bundle_plugins (lines 111-143): a missing group directory is a
warning; otherwise every subdirectory is validated in order. -/
def validatePluginGroup (o : Option (List VPluginDir)) (missingWarn : String) :
    List String × List String :=
  match o with
  | none => ([], [missingWarn])
  | some ds => validatePluginsFold (ds.filter (fun d => d.isDir))

/-- Filesystem for validate_marketplace.py. -/
structure ValidatorFS where
  marketplace : Option (Option Manifest)
  individual : Option (List VPluginDir)
  bundles : Option (List VPluginDir)
  pathExists : String → Bool

/-- validate_marketplace.py validate (lines 25-41): marketplace.json first,
then the individual plugins, then the bundles; error () is an uncaught
exception (interpreter status 1, no result lists). -/
def validateRun (fs : ValidatorFS) : Except Unit (List String × List String) :=
  match validate_marketplace_json fs.marketplace fs.pathExists with
  | Except.error u => Except.error u
  | Except.ok mkt =>
    let ind := validatePluginGroup fs.individual ("No individual plugins directory found")
    let bun := validatePluginGroup fs.bundles ("No bundles directory found")
    Except.ok (mkt.1 ++ ind.1 ++ bun.1, mkt.2 ++ ind.2 ++ bun.2)

/-- validate_marketplace.py main (lines 235-243): sys.exit(0) when no error
was recorded, sys.exit(1) otherwise; an uncaught exception also terminates
the interpreter with status 1. -/
def validateExitCode (fs : ValidatorFS) : Nat :=
  match validateRun fs with
  | Except.error _ => 1
  | Except.ok (errs, _) => if errs.isEmpty then 0 else 1

/-- Sufficient well-formedness of the marketplace.json plugins entries for the
validator not to crash: each entry is an object whose source, when present,
is a string. -/
def entrySafe : JValue → Bool
  | JValue.obj fields =>
    match getKey fields ("source") with
    | some (JValue.str _) => true
    | none => true
    | some _ => false
  | _ => false

def marketplaceSafe : Option (Option Manifest) → Bool
  | some (some m) =>
    (match getKey m ("plugins") with
     | some (JValue.arr es) => es.all entrySafe
     | _ => true)
  | _ => true

/-
Visit sets of the two fixer scripts (fix_plugin_manifests.py main, lines
58-82, and fix_agent_command_paths.py main, lines 66-86), as path component
lists relative to the repository root.
-/

/-- fix_plugin_manifests.py visits repo_root/.claude/plugins/kind/plugin/
.claude-plugin/plugin.json for kind in individual, bundles. -/
def fixPluginManifestsVisitPath (kind plugin : String) : List String :=
  [(".claude"), ("plugins"), kind, plugin, (".claude-plugin"), ("plugin.json")]

/-- fix_agent_command_paths.py visits repo_root/plugins/kind/plugin/
.claude-plugin/plugin.json for kind in individual, bundles. -/
def fixAgentCommandPathsVisitPath (kind plugin : String) : List String :=
  [("plugins"), kind, plugin, (".claude-plugin"), ("plugin.json")]

/-- Path (relative to the repository root) of the manifest generate_plugin.py
writes for a skill. -/
def individualManifestPath (skill_name : String) : List String :=
  [(".claude"), ("plugins"), ("individual"), skill_name, (".claude-plugin"), ("plugin.json")]

/-- Path (relative to the repository root) of the manifest generate_bundle.py
writes for a bundle. -/
def bundleManifestPath (bundle_name : String) : List String :=
  [(".claude"), ("plugins"), ("bundles"), bundle_name, (".claude-plugin"), ("plugin.json")]

/-- The repository field of the manifest, when it is an object, has a url
value that is not itself an object.  Every manifest the generators write
satisfies this (their repository url is a string); on a manifest violating
it, one fix_plugin_manifests.py pass leaves an object in repository and a
second pass flattens it again. -/
def repoUrlSafe (m : Manifest) : Bool :=
  match getKey m ("repository") with
  | some (JValue.obj fields) =>
    (match getKey fields ("url") with
     | some (JValue.obj _) => false
     | _ => true)
  | _ => true

/-- Condition under which fix_agent_command_paths.py converts the field key
(with discovery directory listing files): the manifest value is a string
ending in a slash and at least one .md file is discovered. -/
def acpConvertible (m : Manifest) (key : String) (files : Option (List String)) : Prop :=
  ∃ s, getKey m key = some (JValue.str s) ∧ pyEndsWith s ("/") = true ∧
    get_md_files files key ≠ []

/-- The bundle aggregation writes skill-f for a command file f of a member
skill; two distinct skills can only produce the same destination name when
one skill name extended by a dash is a prefix of the other extended by a
dash.  This Boolean check rules that out. -/
def noDashPrefix (s1 s2 : String) : Bool :=
  !((s1 ++ ("-")).data.isPrefixOf ((s2 ++ ("-")).data))

def pairwiseDistinctCommandNames (l : List String) : Bool :=
  l.all (fun s1 => l.all (fun s2 => (s1 == s2) || noDashPrefix s1 s2))

/-
Theorems.  First the association-list and string toolkit, then one theorem
(plus witness or counterexample) per claim.
-/

theorem isPrefixOfIff {a b : List Char} : a.isPrefixOf b = true ↔ a <+: b := by
  exact List.isPrefixOf_iff_prefix

theorem isSuffixOfIff {a b : List Char} : a.isSuffixOf b = true ↔ a <:+ b := by
  exact List.isSuffixOf_iff_suffix

theorem pyStartsWith_prefix_append (p t : String) : pyStartsWith (p ++ t) p = true := by
  unfold pyStartsWith
  rw [String.data_append]
  exact isPrefixOfIff.2 (List.prefix_append _ _)

theorem getKey_setKey_self (m : Manifest) (k : String) (v : JValue) :
    getKey (setKey m k v) k = some v := by
  induction m with
  | nil => simp [setKey, getKey]
  | cons hd t ih =>
    obtain ⟨k2, w⟩ := hd
    by_cases hk : k2 = k
    · subst hk; simp [setKey, getKey]
    · simp [setKey, getKey, hk, ih]

theorem getKey_setKey_ne (m : Manifest) (k k2 : String) (v : JValue) (h : k2 ≠ k) :
    getKey (setKey m k v) k2 = getKey m k2 := by
  induction m with
  | nil => simp [setKey, getKey, Ne.symm h]
  | cons hd t ih =>
    obtain ⟨k3, w⟩ := hd
    by_cases hk : k3 = k
    · subst hk
      simp [setKey, getKey, Ne.symm h]
    · simp [setKey, getKey, hk, ih]

theorem getKey_delKey_self (m : Manifest) (k : String) :
    getKey (delKey m k) k = none := by
  induction m with
  | nil => simp [delKey, getKey]
  | cons hd t ih =>
    obtain ⟨k2, w⟩ := hd
    by_cases hk : k2 = k
    · simp [delKey, hk, ih]
    · simp [delKey, getKey, hk, ih]

theorem getKey_delKey_ne (m : Manifest) (k k2 : String) (h : k2 ≠ k) :
    getKey (delKey m k) k2 = getKey m k2 := by
  induction m with
  | nil => simp [delKey]
  | cons hd t ih =>
    obtain ⟨k3, w⟩ := hd
    by_cases hk : k3 = k
    · subst hk
      simp [delKey, getKey, Ne.symm h, ih]
    · simp [delKey, getKey, hk, ih]

theorem delKey_eq_of_getKey_none (m : Manifest) (k : String) (h : getKey m k = none) :
    delKey m k = m := by
  induction m with
  | nil => rfl
  | cons hd t ih =>
    obtain ⟨k2, w⟩ := hd
    by_cases hk : k2 = k
    · rw [getKey, if_pos hk] at h
      exact absurd h (by simp)
    · rw [getKey, if_neg hk] at h
      rw [delKey, if_neg hk, ih h]

theorem fixAuthor_getKey_ne (m : Manifest) (k : String) (h : k ≠ ("author")) :
    getKey (fixAuthor m) k = getKey m k := by
  cases hA : getKey m ("author") with
  | none => simp [fixAuthor, hA]
  | some v =>
    cases v with
    | str s => simp [fixAuthor, hA, getKey_setKey_ne _ _ _ _ h]
    | num n => simp [fixAuthor, hA]
    | boolean b => simp [fixAuthor, hA]
    | null => simp [fixAuthor, hA]
    | arr es => simp [fixAuthor, hA]
    | obj fs => simp [fixAuthor, hA]

theorem fixAuthor_not_str (m : Manifest) (s : String) :
    getKey (fixAuthor m) ("author") ≠ some (JValue.str s) := by
  cases hA : getKey m ("author") with
  | none =>
    simp only [fixAuthor, hA]
    intro h
    exact Option.noConfusion h
  | some v =>
    cases v with
    | str s2 =>
      simp only [fixAuthor, hA]
      rw [getKey_setKey_self]
      intro h
      exact JValue.noConfusion (Option.some.inj h)
    | num n =>
      simp only [fixAuthor, hA]
      intro h
      exact JValue.noConfusion (Option.some.inj h)
    | boolean b =>
      simp only [fixAuthor, hA]
      intro h
      exact JValue.noConfusion (Option.some.inj h)
    | null =>
      simp only [fixAuthor, hA]
      intro h
      exact JValue.noConfusion (Option.some.inj h)
    | arr es =>
      simp only [fixAuthor, hA]
      intro h
      exact JValue.noConfusion (Option.some.inj h)
    | obj fs =>
      simp only [fixAuthor, hA]
      intro h
      exact JValue.noConfusion (Option.some.inj h)

theorem fixAuthor_id (m : Manifest) (h : ∀ s, getKey m ("author") ≠ some (JValue.str s)) :
    fixAuthor m = m := by
  cases hA : getKey m ("author") with
  | none => simp [fixAuthor, hA]
  | some v =>
    cases v with
    | str s => exact absurd hA (h s)
    | num n => simp [fixAuthor, hA]
    | boolean b => simp [fixAuthor, hA]
    | null => simp [fixAuthor, hA]
    | arr es => simp [fixAuthor, hA]
    | obj fs => simp [fixAuthor, hA]

theorem fixRepository_inv (m m2 : Manifest) (hr : fixRepository m = some m2) :
    (m2 = m ∧ ∀ g, getKey m ("repository") ≠ some (JValue.obj g)) ∨
    ∃ fields u, getKey m ("repository") = some (JValue.obj fields) ∧
      getKey fields ("url") = some u ∧ m2 = setKey m ("repository") u := by
  cases hA : getKey m ("repository") with
  | none =>
    simp only [fixRepository, hA] at hr
    refine Or.inl ⟨(Option.some.inj hr).symm, ?_⟩
    intro g hg
    exact Option.noConfusion hg
  | some v =>
    cases v with
    | obj fields =>
      cases hU : getKey fields ("url") with
      | none =>
        simp only [fixRepository, hA, hU] at hr
        exact Option.noConfusion hr
      | some u =>
        simp only [fixRepository, hA, hU] at hr
        exact Or.inr ⟨fields, u, rfl, hU, (Option.some.inj hr).symm⟩
    | str s =>
      simp only [fixRepository, hA] at hr
      refine Or.inl ⟨(Option.some.inj hr).symm, ?_⟩
      intro g hg
      exact JValue.noConfusion (Option.some.inj hg)
    | num n =>
      simp only [fixRepository, hA] at hr
      refine Or.inl ⟨(Option.some.inj hr).symm, ?_⟩
      intro g hg
      exact JValue.noConfusion (Option.some.inj hg)
    | boolean b =>
      simp only [fixRepository, hA] at hr
      refine Or.inl ⟨(Option.some.inj hr).symm, ?_⟩
      intro g hg
      exact JValue.noConfusion (Option.some.inj hg)
    | null =>
      simp only [fixRepository, hA] at hr
      refine Or.inl ⟨(Option.some.inj hr).symm, ?_⟩
      intro g hg
      exact JValue.noConfusion (Option.some.inj hg)
    | arr es =>
      simp only [fixRepository, hA] at hr
      refine Or.inl ⟨(Option.some.inj hr).symm, ?_⟩
      intro g hg
      exact JValue.noConfusion (Option.some.inj hg)

theorem fixRepository_getKey_ne (m m2 : Manifest) (k : String) (h : k ≠ ("repository"))
    (hr : fixRepository m = some m2) : getKey m2 k = getKey m k := by
  rcases fixRepository_inv m m2 hr with ⟨rfl, _⟩ | ⟨fields, u, hA, hU, rfl⟩
  · rfl
  · exact getKey_setKey_ne _ _ _ _ h

theorem fixRepository_not_obj (m m2 : Manifest) (hsafe : repoUrlSafe m = true)
    (hr : fixRepository m = some m2) (f : List (String × JValue)) :
    getKey m2 ("repository") ≠ some (JValue.obj f) := by
  rcases fixRepository_inv m m2 hr with ⟨rfl, hnot⟩ | ⟨fields, u, hA, hU, rfl⟩
  · exact hnot f
  · rw [getKey_setKey_self]
    intro hobj
    obtain rfl := Option.some.inj hobj
    simp only [repoUrlSafe, hA, hU] at hsafe
    exact Bool.noConfusion hsafe

theorem fixRepository_id (m : Manifest)
    (h : ∀ f, getKey m ("repository") ≠ some (JValue.obj f)) :
    fixRepository m = some m := by
  cases hA : getKey m ("repository") with
  | none => simp [fixRepository, hA]
  | some v =>
    cases v with
    | obj fields => exact absurd hA (h fields)
    | str s => simp [fixRepository, hA]
    | num n => simp [fixRepository, hA]
    | boolean b => simp [fixRepository, hA]
    | null => simp [fixRepository, hA]
    | arr es => simp [fixRepository, hA]

theorem fixPathField_getKey_ne (m : Manifest) (key k : String) (h : k ≠ key) :
    getKey (fixPathField m key) k = getKey m k := by
  cases hA : getKey m key with
  | none => simp [fixPathField, hA]
  | some v =>
    cases v with
    | str s =>
      by_cases hs : pyStartsWith s ("./") = true
      · simp [fixPathField, hA, hs]
      · simp [fixPathField, hA, hs, getKey_setKey_ne _ _ _ _ h]
    | num n => simp [fixPathField, hA]
    | boolean b => simp [fixPathField, hA]
    | null => simp [fixPathField, hA]
    | arr es => simp [fixPathField, hA]
    | obj fs => simp [fixPathField, hA]

theorem fixPathField_starts (m : Manifest) (key s : String)
    (h : getKey (fixPathField m key) key = some (JValue.str s)) :
    pyStartsWith s ("./") = true := by
  cases hA : getKey m key with
  | none =>
    simp only [fixPathField, hA] at h
    exact Option.noConfusion h
  | some v =>
    cases v with
    | str s0 =>
      by_cases hs : pyStartsWith s0 ("./") = true
      · simp only [fixPathField, hA, hs, if_true] at h
        injection h with h2
        injection h2 with h3
        subst h3
        exact hs
      · simp only [fixPathField, hA] at h
        rw [if_neg hs, getKey_setKey_self] at h
        injection h with h2
        injection h2 with h3
        subst h3
        exact pyStartsWith_prefix_append ("./") s0
    | num n =>
      simp only [fixPathField, hA] at h
      exact JValue.noConfusion (Option.some.inj h)
    | boolean b =>
      simp only [fixPathField, hA] at h
      exact JValue.noConfusion (Option.some.inj h)
    | null =>
      simp only [fixPathField, hA] at h
      exact JValue.noConfusion (Option.some.inj h)
    | arr es =>
      simp only [fixPathField, hA] at h
      exact JValue.noConfusion (Option.some.inj h)
    | obj fs =>
      simp only [fixPathField, hA] at h
      exact JValue.noConfusion (Option.some.inj h)

theorem fixPathField_id (m : Manifest) (key : String)
    (h : ∀ s, getKey m key = some (JValue.str s) → pyStartsWith s ("./") = true) :
    fixPathField m key = m := by
  cases hA : getKey m key with
  | none => simp [fixPathField, hA]
  | some v =>
    cases v with
    | str s => simp [fixPathField, hA, h s hA]
    | num n => simp [fixPathField, hA]
    | boolean b => simp [fixPathField, hA]
    | null => simp [fixPathField, hA]
    | arr es => simp [fixPathField, hA]
    | obj fs => simp [fixPathField, hA]

theorem repoUrlSafe_congr (mA mB : Manifest)
    (h : getKey mA ("repository") = getKey mB ("repository")) :
    repoUrlSafe mA = repoUrlSafe mB := by
  rw [repoUrlSafe, repoUrlSafe, h]

theorem getKey_after_fix (m2 : Manifest) (k : String)
    (h1 : k ≠ ("category")) (h2 : k ≠ ("bundle")) (h3 : k ≠ ("includes"))
    (h4 : k ≠ ("commands")) (h5 : k ≠ ("agents")) (h6 : k ≠ ("skills")) :
    getKey (delKey (delKey (delKey
        (fixPathField (fixPathField (fixPathField m2 ("commands")) ("agents")) ("skills"))
        ("category")) ("bundle")) ("includes")) k
      = getKey m2 k := by
  rw [getKey_delKey_ne _ _ _ h3, getKey_delKey_ne _ _ _ h2, getKey_delKey_ne _ _ _ h1,
      fixPathField_getKey_ne _ _ _ h6, fixPathField_getKey_ne _ _ _ h5,
      fixPathField_getKey_ne _ _ _ h4]

/-- Claim C3 (amended): fix_plugin_manifests.py is idempotent on every
plugin.json whose repository field, when it is an object, does not have an
object as its url value: when one run rewrites the manifest m to m-prime, a
second run writes back exactly m-prime, so the second run is byte-identical
(json.dump is deterministic on an unchanged object). -/
theorem claimC3 (m m' : Manifest) (h1 : fix_plugin_manifest m = some m')
    (h2 : repoUrlSafe m = true) : fix_plugin_manifest m' = some m' := by
  cases hr : fixRepository (fixAuthor m) with
  | none =>
    simp only [fix_plugin_manifest, hr] at h1
    exact Option.noConfusion h1
  | some m2 =>
    simp only [fix_plugin_manifest, hr] at h1
    obtain rfl := Option.some.inj h1
    have hsafe1 : repoUrlSafe (fixAuthor m) = true := by
      rw [repoUrlSafe_congr (fixAuthor m) m
        (fixAuthor_getKey_ne m ("repository") (by decide))]
      exact h2
    have hauth : ∀ s,
        getKey (delKey (delKey (delKey
          (fixPathField (fixPathField (fixPathField m2 ("commands")) ("agents")) ("skills"))
          ("category")) ("bundle")) ("includes")) ("author") ≠ some (JValue.str s) := by
      intro s
      rw [getKey_after_fix m2 ("author") (by decide) (by decide) (by decide)
        (by decide) (by decide) (by decide)]
      rw [fixRepository_getKey_ne (fixAuthor m) m2 ("author") (by decide) hr]
      exact fixAuthor_not_str m s
    have hrepo : ∀ f,
        getKey (delKey (delKey (delKey
          (fixPathField (fixPathField (fixPathField m2 ("commands")) ("agents")) ("skills"))
          ("category")) ("bundle")) ("includes")) ("repository") ≠ some (JValue.obj f) := by
      intro f
      rw [getKey_after_fix m2 ("repository") (by decide) (by decide) (by decide)
        (by decide) (by decide) (by decide)]
      exact fixRepository_not_obj (fixAuthor m) m2 hsafe1 hr f
    have hcmd : ∀ s,
        getKey (delKey (delKey (delKey
          (fixPathField (fixPathField (fixPathField m2 ("commands")) ("agents")) ("skills"))
          ("category")) ("bundle")) ("includes")) ("commands") = some (JValue.str s) →
        pyStartsWith s ("./") = true := by
      intro s hs
      rw [getKey_delKey_ne _ _ _ (by decide), getKey_delKey_ne _ _ _ (by decide),
        getKey_delKey_ne _ _ _ (by decide), fixPathField_getKey_ne _ _ _ (by decide),
        fixPathField_getKey_ne _ _ _ (by decide)] at hs
      exact fixPathField_starts m2 ("commands") s hs
    have hag : ∀ s,
        getKey (delKey (delKey (delKey
          (fixPathField (fixPathField (fixPathField m2 ("commands")) ("agents")) ("skills"))
          ("category")) ("bundle")) ("includes")) ("agents") = some (JValue.str s) →
        pyStartsWith s ("./") = true := by
      intro s hs
      rw [getKey_delKey_ne _ _ _ (by decide), getKey_delKey_ne _ _ _ (by decide),
        getKey_delKey_ne _ _ _ (by decide),
        fixPathField_getKey_ne _ _ _ (by decide)] at hs
      exact fixPathField_starts (fixPathField m2 ("commands")) ("agents") s hs
    have hsk : ∀ s,
        getKey (delKey (delKey (delKey
          (fixPathField (fixPathField (fixPathField m2 ("commands")) ("agents")) ("skills"))
          ("category")) ("bundle")) ("includes")) ("skills") = some (JValue.str s) →
        pyStartsWith s ("./") = true := by
      intro s hs
      rw [getKey_delKey_ne _ _ _ (by decide), getKey_delKey_ne _ _ _ (by decide),
        getKey_delKey_ne _ _ _ (by decide)] at hs
      exact fixPathField_starts (fixPathField (fixPathField m2 ("commands")) ("agents"))
        ("skills") s hs
    have hcat :
        getKey (delKey (delKey (delKey
          (fixPathField (fixPathField (fixPathField m2 ("commands")) ("agents")) ("skills"))
          ("category")) ("bundle")) ("includes")) ("category") = none := by
      rw [getKey_delKey_ne _ _ _ (by decide), getKey_delKey_ne _ _ _ (by decide),
        getKey_delKey_self]
    have hbun :
        getKey (delKey (delKey (delKey
          (fixPathField (fixPathField (fixPathField m2 ("commands")) ("agents")) ("skills"))
          ("category")) ("bundle")) ("includes")) ("bundle") = none := by
      rw [getKey_delKey_ne _ _ _ (by decide), getKey_delKey_self]
    have hinc :
        getKey (delKey (delKey (delKey
          (fixPathField (fixPathField (fixPathField m2 ("commands")) ("agents")) ("skills"))
          ("category")) ("bundle")) ("includes")) ("includes") = none := by
      rw [getKey_delKey_self]
    have hA_id := fixAuthor_id _ hauth
    have hR_id := fixRepository_id _ hrepo
    have hC_id := fixPathField_id _ ("commands") hcmd
    have hAg_id := fixPathField_id _ ("agents") hag
    have hSk_id := fixPathField_id _ ("skills") hsk
    have hCat_id := delKey_eq_of_getKey_none _ ("category") hcat
    have hBun_id := delKey_eq_of_getKey_none _ ("bundle") hbun
    have hInc_id := delKey_eq_of_getKey_none _ ("includes") hinc
    simp only [fix_plugin_manifest, hA_id, hR_id, hC_id, hAg_id, hSk_id,
      hCat_id, hBun_id, hInc_id]

/-- Claim C3 counterexample: the claim quantifies over every plugin.json, but
on a manifest whose repository object has an object url value the second
fix_plugin_manifests.py run rewrites the file differently from the first, so
the second run is not the identity. -/
theorem claimC3_counterexample :
    fix_plugin_manifest
        [(("repository"), JValue.obj [(("url"), JValue.obj [(("url"), JValue.str ("x"))])])]
      = some [(("repository"), JValue.obj [(("url"), JValue.str ("x"))])]
    ∧ fix_plugin_manifest [(("repository"), JValue.obj [(("url"), JValue.str ("x"))])]
      = some [(("repository"), JValue.str ("x"))]
    ∧ ([(("repository"), JValue.obj [(("url"), JValue.str ("x"))])] : Manifest)
      ≠ [(("repository"), JValue.str ("x"))] := by
  refine ⟨rfl, rfl, ?_⟩
  intro h
  have h2 := congrArg (fun l => (getKey l ("repository")).map JValue.isStr) h
  simp [getKey, JValue.isStr] at h2

/-- Claim C3 witness: a concrete manifest of the shape the generators write
(string author, git repository object, bare directory path fields, a category
key) on which the amended idempotence theorem applies. -/
theorem claimC3_witness :
    fix_plugin_manifest
        [(("author"), JValue.obj [(("name"), JValue.str ("Claude Design Skillstack")),
            (("email"), JValue.str ("oladotun.olatunji@gmail.com"))]),
         (("repository"), JValue.str ("https://github.com/freshtechbro/claudedesignskills.git")),
         (("commands"), JValue.str ("./commands/"))]
      = some [(("author"), JValue.obj [(("name"), JValue.str ("Claude Design Skillstack")),
            (("email"), JValue.str ("oladotun.olatunji@gmail.com"))]),
         (("repository"), JValue.str ("https://github.com/freshtechbro/claudedesignskills.git")),
         (("commands"), JValue.str ("./commands/"))] :=
  claimC3
    [(("author"), JValue.str ("Claude Design Skillstack")),
     (("repository"), JValue.obj [(("type"), JValue.str ("git")),
        (("url"), JValue.str ("https://github.com/freshtechbro/claudedesignskills.git"))]),
     (("category"), JValue.str ("animation")),
     (("commands"), JValue.str ("commands/"))]
    _ (by rfl) (by rfl)

/-- Claim C2: every plugin.json written by generate_plugin.py or
generate_bundle.py has a name field equal to the basename of the plugin
directory that contains it, the grandparent of the manifest path. -/
theorem claimC2 (skill_name bundle_name : String) (meta : List (String × String))
    (cfg : BundleConfig) :
    (∃ nm, getKey (pluginManifest skill_name meta) ("name") = some (JValue.str nm)
      ∧ ((individualManifestPath skill_name).dropLast.dropLast).getLast? = some nm)
    ∧ (∃ nm, getKey (bundleManifest bundle_name cfg) ("name") = some (JValue.str nm)
      ∧ ((bundleManifestPath bundle_name).dropLast.dropLast).getLast? = some nm) :=
  ⟨⟨skill_name, rfl, rfl⟩, ⟨bundle_name, rfl, rfl⟩⟩

/-- Claim C10: relative to any fixed repository root, fix_plugin_manifests.py
visits only manifests under .claude/plugins while fix_agent_command_paths.py
visits only manifests under plugins, so no manifest file is processed by
both scripts. -/
theorem claimC10 (root : List String) (k1 n1 k2 n2 : String) :
    root ++ fixPluginManifestsVisitPath k1 n1 ≠ root ++ fixAgentCommandPathsVisitPath k2 n2 := by
  intro h
  have h2 : fixPluginManifestsVisitPath k1 n1 = fixAgentCommandPathsVisitPath k2 n2 :=
    List.append_cancel_left h
  have h3 := congrArg List.length h2
  simp [fixPluginManifestsVisitPath, fixAgentCommandPathsVisitPath] at h3

theorem acpStep_spec (m : Manifest) (key : String) (files : Option (List String)) :
    (¬ acpConvertible m key files ∧ acpStep m key files = (m, false)) ∨
    (∃ s, getKey m key = some (JValue.str s) ∧ pyEndsWith s ("/") = true ∧
      get_md_files files key ≠ [] ∧
      acpStep m key files
        = (setKey m key (JValue.arr ((get_md_files files key).map JValue.str)), true)) := by
  cases hA : getKey m key with
  | none =>
    left
    refine ⟨?_, by simp [acpStep, hA]⟩
    rintro ⟨s, hs, -, -⟩
    rw [hA] at hs
    exact Option.noConfusion hs
  | some v =>
    cases v with
    | str s =>
      by_cases hsl : pyEndsWith s ("/") = true
      · by_cases hemp : (get_md_files files key).isEmpty = true
        · left
          refine ⟨?_, by simp [acpStep, hA, hsl, hemp]⟩
          rintro ⟨s2, hs2, -, hne⟩
          exact hne (List.isEmpty_iff.1 hemp)
        · right
          refine ⟨s, rfl, hsl, fun hn => hemp (by simp [hn]), ?_⟩
          simp [acpStep, hA, hsl, hemp]
      · left
        refine ⟨?_, by simp [acpStep, hA, hsl]⟩
        rintro ⟨s2, hs2, hsl2, -⟩
        rw [hA] at hs2
        injection hs2 with hs3
        injection hs3 with hs4
        rw [← hs4] at hsl2
        exact hsl hsl2
    | num n =>
      left
      refine ⟨?_, by simp [acpStep, hA]⟩
      rintro ⟨s, hs, -, -⟩
      rw [hA] at hs
      exact JValue.noConfusion (Option.some.inj hs)
    | boolean b =>
      left
      refine ⟨?_, by simp [acpStep, hA]⟩
      rintro ⟨s, hs, -, -⟩
      rw [hA] at hs
      exact JValue.noConfusion (Option.some.inj hs)
    | null =>
      left
      refine ⟨?_, by simp [acpStep, hA]⟩
      rintro ⟨s, hs, -, -⟩
      rw [hA] at hs
      exact JValue.noConfusion (Option.some.inj hs)
    | arr es =>
      left
      refine ⟨?_, by simp [acpStep, hA]⟩
      rintro ⟨s, hs, -, -⟩
      rw [hA] at hs
      exact JValue.noConfusion (Option.some.inj hs)
    | obj fs =>
      left
      refine ⟨?_, by simp [acpStep, hA]⟩
      rintro ⟨s, hs, -, -⟩
      rw [hA] at hs
      exact JValue.noConfusion (Option.some.inj hs)

theorem manifest_ne_of_key (mA mB : Manifest) (key : String) (a : List JValue) (s : String)
    (hA : getKey mA key = some (JValue.arr a)) (hB : getKey mB key = some (JValue.str s)) :
    mA ≠ mB := by
  intro h
  rw [h, hB] at hA
  exact JValue.noConfusion (Option.some.inj hA)

theorem acpConvertible_congr (mA mB : Manifest) (key : String)
    (files : Option (List String)) (h : getKey mA key = getKey mB key) :
    acpConvertible mA key files ↔ acpConvertible mB key files := by
  unfold acpConvertible
  rw [h]

/-- Claim C9: for every plugin.json it visits, fix_agent_command_paths.py
writes the file back exactly when it converted the commands or agents field
(string ending in a slash with at least one discovered .md file); when no
conversion applies the file is left untouched (the none result), and when it
does write, the written manifest differs from the one on disk. -/
theorem claimC9 (p : PluginDirFS) (m : Manifest) (hm : p.manifest = some m) :
    (fix_plugin_manifest_acp p = none ↔
      ¬ acpConvertible m ("commands") p.commandsFiles ∧
      ¬ acpConvertible m ("agents") p.agentsFiles)
    ∧ (∀ m', fix_plugin_manifest_acp p = some m' → m' ≠ m) := by
  have hg_ag : ∀ v, getKey (setKey m ("commands") v) ("agents") = getKey m ("agents") :=
    fun v => getKey_setKey_ne _ _ _ _ (by decide)
  rcases acpStep_spec m ("commands") p.commandsFiles with ⟨hnc, hsc⟩ |
      ⟨s, hgc, hslc, hnec, hsc⟩
  · rcases acpStep_spec m ("agents") p.agentsFiles with ⟨hna, hsa⟩ |
        ⟨t, hga, hsla, hnea, hsa⟩
    · have hval : fix_plugin_manifest_acp p = none := by
        simp [fix_plugin_manifest_acp, hm, hsc, hsa]
      refine ⟨?_, ?_⟩
      · rw [hval]
        exact ⟨fun _ => ⟨hnc, hna⟩, fun _ => rfl⟩
      · intro m' hm'
        rw [hval] at hm'
        exact Option.noConfusion hm'
    · have hval : fix_plugin_manifest_acp p = some (setKey m ("agents")
          (JValue.arr ((get_md_files p.agentsFiles ("agents")).map JValue.str))) := by
        simp [fix_plugin_manifest_acp, hm, hsc, hsa]
      refine ⟨?_, ?_⟩
      · rw [hval]
        constructor
        · intro h
          exact Option.noConfusion h
        · intro h
          exact absurd ⟨t, hga, hsla, hnea⟩ h.2
      · intro m' hm'
        rw [hval] at hm'
        obtain rfl := Option.some.inj hm'.symm
        exact manifest_ne_of_key _ _ ("agents") _ t (getKey_setKey_self _ _ _) hga
  · have hconv : acpConvertible m ("commands") p.commandsFiles := ⟨s, hgc, hslc, hnec⟩
    rcases acpStep_spec
        (setKey m ("commands")
          (JValue.arr ((get_md_files p.commandsFiles ("commands")).map JValue.str)))
        ("agents") p.agentsFiles with ⟨hna1, hsa⟩ | ⟨t, hga1, hsla, hnea, hsa⟩
    · have hval : fix_plugin_manifest_acp p = some (setKey m ("commands")
          (JValue.arr ((get_md_files p.commandsFiles ("commands")).map JValue.str))) := by
        simp [fix_plugin_manifest_acp, hm, hsc, hsa]
      refine ⟨?_, ?_⟩
      · rw [hval]
        constructor
        · intro h
          exact Option.noConfusion h
        · intro h
          exact absurd hconv h.1
      · intro m' hm'
        rw [hval] at hm'
        obtain rfl := Option.some.inj hm'.symm
        exact manifest_ne_of_key _ _ ("commands") _ s (getKey_setKey_self _ _ _) hgc
    · have hval : fix_plugin_manifest_acp p = some (setKey
          (setKey m ("commands")
            (JValue.arr ((get_md_files p.commandsFiles ("commands")).map JValue.str)))
          ("agents")
          (JValue.arr ((get_md_files p.agentsFiles ("agents")).map JValue.str))) := by
        simp [fix_plugin_manifest_acp, hm, hsc, hsa]
      refine ⟨?_, ?_⟩
      · rw [hval]
        constructor
        · intro h
          exact Option.noConfusion h
        · intro h
          exact absurd hconv h.1
      · intro m' hm'
        rw [hval] at hm'
        obtain rfl := Option.some.inj hm'.symm
        refine manifest_ne_of_key _ _ ("commands")
          ((get_md_files p.commandsFiles ("commands")).map JValue.str) s ?_ hgc
        rw [getKey_setKey_ne _ _ _ _ (by decide), getKey_setKey_self]

/-- Claim C9 witness: a visited manifest with no commands or agents field is
left untouched. -/
theorem claimC9_witness :
    fix_plugin_manifest_acp ⟨some [(("name"), JValue.str ("p1"))], none, none⟩ = none := by
  refine (claimC9 ⟨some [(("name"), JValue.str ("p1"))], none, none⟩
    [(("name"), JValue.str ("p1"))] rfl).1.mpr ⟨?_, ?_⟩
  · rintro ⟨s, hs, -, -⟩
    simp [getKey] at hs
  · rintro ⟨s, hs, -, -⟩
    simp [getKey] at hs

theorem get_md_files_starts (files : Option (List String)) (subdir : String) :
    ∀ x ∈ get_md_files files subdir, pyStartsWith x ("./") = true := by
  intro x hx
  cases files with
  | none => simp [get_md_files] at hx
  | some fs =>
    simp only [get_md_files, List.mem_map] at hx
    obtain ⟨f, -, rfl⟩ := hx
    unfold pyStartsWith
    simp only [String.data_append, List.append_assoc]
    exact isPrefixOfIff.2 ⟨subdir.data ++ (("/") : String).data ++ f.data,
      by simp [List.append_assoc]⟩

theorem fixPathField_value (m : Manifest) (key s : String)
    (h : getKey m key = some (JValue.str s)) :
    ∃ t, getKey (fixPathField m key) key = some (JValue.str t) ∧
      pyStartsWith t ("./") = true := by
  by_cases hs : pyStartsWith s ("./") = true
  · exact ⟨s, by simp [fixPathField, h, hs], hs⟩
  · refine ⟨("./") ++ s, ?_, pyStartsWith_prefix_append ("./") s⟩
    simp [fixPathField, h, hs, getKey_setKey_self]

/-- Claim C6 (amended): the two effects the claim describes are split between
the two fixer scripts, which visit disjoint trees.  fix_agent_command_paths.py
converts a commands (resp. agents) string directory path ending in a slash
into the array of the dot-slash prefixed .md paths discovered in the plugin
subdirectory, provided at least one was discovered, and does not touch the
legacy keys; fix_plugin_manifests.py removes the legacy keys category,
bundle and includes, and only dot-slash prefixes a commands string without
converting it to an array. -/
theorem claimC6 :
    (∀ (p : PluginDirFS) (m : Manifest) (s : String), p.manifest = some m →
      getKey m ("commands") = some (JValue.str s) → pyEndsWith s ("/") = true →
      get_md_files p.commandsFiles ("commands") ≠ [] →
      ∃ m', fix_plugin_manifest_acp p = some m'
        ∧ getKey m' ("commands")
            = some (JValue.arr ((get_md_files p.commandsFiles ("commands")).map JValue.str))
        ∧ (∀ x ∈ get_md_files p.commandsFiles ("commands"), pyStartsWith x ("./") = true)
        ∧ getKey m' ("category") = getKey m ("category"))
    ∧ (∀ m m', fix_plugin_manifest m = some m' →
        getKey m' ("category") = none ∧ getKey m' ("bundle") = none ∧
        getKey m' ("includes") = none ∧
        (∀ s, getKey m ("commands") = some (JValue.str s) →
          ∃ t, getKey m' ("commands") = some (JValue.str t) ∧
            pyStartsWith t ("./") = true)) := by
  constructor
  · intro p m s hm hgc hslc hnec
    have hconvsc : acpStep m ("commands") p.commandsFiles
        = (setKey m ("commands")
            (JValue.arr ((get_md_files p.commandsFiles ("commands")).map JValue.str)), true) := by
      rcases acpStep_spec m ("commands") p.commandsFiles with ⟨hnc, -⟩ |
          ⟨s2, -, -, -, hsc⟩
      · exact absurd ⟨s, hgc, hslc, hnec⟩ hnc
      · exact hsc
    rcases acpStep_spec
        (setKey m ("commands")
          (JValue.arr ((get_md_files p.commandsFiles ("commands")).map JValue.str)))
        ("agents") p.agentsFiles with ⟨-, hsa⟩ | ⟨t, -, -, -, hsa⟩
    · refine ⟨setKey m ("commands")
          (JValue.arr ((get_md_files p.commandsFiles ("commands")).map JValue.str)),
        by simp [fix_plugin_manifest_acp, hm, hconvsc, hsa], ?_, ?_, ?_⟩
      · exact getKey_setKey_self _ _ _
      · exact get_md_files_starts _ _
      · exact getKey_setKey_ne _ _ _ _ (by decide)
    · refine ⟨setKey
          (setKey m ("commands")
            (JValue.arr ((get_md_files p.commandsFiles ("commands")).map JValue.str)))
          ("agents")
          (JValue.arr ((get_md_files p.agentsFiles ("agents")).map JValue.str)),
        by simp [fix_plugin_manifest_acp, hm, hconvsc, hsa], ?_, ?_, ?_⟩
      · rw [getKey_setKey_ne _ _ _ _ (by decide), getKey_setKey_self]
      · exact get_md_files_starts _ _
      · rw [getKey_setKey_ne _ _ _ _ (by decide), getKey_setKey_ne _ _ _ _ (by decide)]
  · intro m m' h1
    cases hr : fixRepository (fixAuthor m) with
    | none =>
      simp only [fix_plugin_manifest, hr] at h1
      exact Option.noConfusion h1
    | some m2 =>
      simp only [fix_plugin_manifest, hr] at h1
      obtain rfl := Option.some.inj h1
      refine ⟨?_, ?_, ?_, ?_⟩
      · rw [getKey_delKey_ne _ _ _ (by decide), getKey_delKey_ne _ _ _ (by decide),
          getKey_delKey_self]
      · rw [getKey_delKey_ne _ _ _ (by decide), getKey_delKey_self]
      · rw [getKey_delKey_self]
      · intro s hs
        have hm2 : getKey m2 ("commands") = some (JValue.str s) := by
          rw [fixRepository_getKey_ne (fixAuthor m) m2 ("commands") (by decide) hr,
            fixAuthor_getKey_ne m ("commands") (by decide)]
          exact hs
        obtain ⟨t, ht, hts⟩ := fixPathField_value m2 ("commands") s hm2
        refine ⟨t, ?_, hts⟩
        rw [getKey_delKey_ne _ _ _ (by decide), getKey_delKey_ne _ _ _ (by decide),
          getKey_delKey_ne _ _ _ (by decide), fixPathField_getKey_ne _ _ _ (by decide),
          fixPathField_getKey_ne _ _ _ (by decide)]
        exact ht

/-- Claim C6 counterexample: a manifest with a commands directory string and a
category key.  fix_agent_command_paths.py converts commands to an array but
leaves the legacy category key in place; fix_plugin_manifests.py removes the
legacy keys but leaves commands a dot-slash prefixed string, not an array.  No run
of the fixer scripts performs both effects on one manifest, so the claim as
stated is false. -/
theorem claimC6_counterexample :
    (∃ m, fix_plugin_manifest_acp
        ⟨some [(("commands"), JValue.str ("commands/")), (("category"), JValue.str ("x"))],
         some [("setup.md")], none⟩ = some m
      ∧ getKey m ("category") = some (JValue.str ("x"))
      ∧ getKey m ("commands") = some (JValue.arr [JValue.str ("./commands/setup.md")]))
    ∧ (∃ m, fix_plugin_manifest
        [(("commands"), JValue.str ("commands/")), (("category"), JValue.str ("x"))] = some m
      ∧ getKey m ("commands") = some (JValue.str ("./commands/"))
      ∧ getKey m ("category") = none) :=
  ⟨⟨_, rfl, rfl, rfl⟩, ⟨_, rfl, rfl, rfl⟩⟩

/-- Claim C6 witness: the conversion branch of the amended claim applied to a
concrete plugin directory with one discovered command file. -/
theorem claimC6_witness :
    ∃ m', fix_plugin_manifest_acp
        ⟨some [(("commands"), JValue.str ("commands/"))], some [("setup.md")], none⟩ = some m'
      ∧ getKey m' ("commands")
          = some (JValue.arr ((get_md_files (some [("setup.md")]) ("commands")).map JValue.str))
      ∧ (∀ x ∈ get_md_files (some [("setup.md")]) ("commands"), pyStartsWith x ("./") = true)
      ∧ getKey m' ("category")
          = getKey [(("commands"), JValue.str ("commands/"))] ("category") :=
  claimC6.1 ⟨some [(("commands"), JValue.str ("commands/"))], some [("setup.md")], none⟩
    [(("commands"), JValue.str ("commands/"))] ("commands/") rfl rfl rfl (by decide)

theorem stringDataInj {a b : String} (h : a.data = b.data) : a = b := by
  cases a
  cases b
  cases h
  rfl

theorem lastDotIdxAux_append_py (t : List Char) (i : Nat) :
    lastDotIdxAux (t ++ [('.'), ('p'), ('y')]) i = some (i + t.length) := by
  induction t generalizing i with
  | nil => rfl
  | cons c t ih =>
    simp only [List.cons_append, lastDotIdxAux, List.append_eq, ih, List.length_cons]
    congr 1
    omega

theorem pyStem_spec (f : String) (t : List Char) (hne : t ≠ [])
    (hdata : f.data = t ++ ((".py") : String).data) :
    pyStem f = String.mk t := by
  have hdata2 : f.data = t ++ [('.'), ('p'), ('y')] := by
    rw [hdata]
  have haux : lastDotIdxAux f.data 0 = some t.length := by
    rw [hdata2, lastDotIdxAux_append_py, Nat.zero_add]
  unfold pyStem
  rw [haux]
  show (if t.length = 0 then f else String.mk (f.data.take t.length)) = String.mk t
  rw [if_neg (fun h => hne (List.length_eq_zero.1 h))]
  congr 1
  rw [hdata]
  exact List.take_left _ _

theorem pyEndsWith_py_decomp (f : String) (h : pyEndsWith f (".py") = true) :
    ∃ t, f.data = t ++ ((".py") : String).data := by
  obtain ⟨t, ht⟩ := isSuffixOfIff.1 h
  exact ⟨t, ht.symm⟩

theorem pyStem_md_inj (f1 f2 : String)
    (h1 : pyEndsWith f1 (".py") = true) (h2 : pyEndsWith f2 (".py") = true)
    (hne1 : f1 ≠ (".py")) (hne2 : f2 ≠ (".py"))
    (heq : pyStem f1 ++ (".md") = pyStem f2 ++ (".md")) : f1 = f2 := by
  obtain ⟨t1, hd1⟩ := pyEndsWith_py_decomp f1 h1
  obtain ⟨t2, hd2⟩ := pyEndsWith_py_decomp f2 h2
  have ht1 : t1 ≠ [] := by
    intro h
    exact hne1 (stringDataInj (by rw [hd1, h]; rfl))
  have ht2 : t2 ≠ [] := by
    intro h
    exact hne2 (stringDataInj (by rw [hd2, h]; rfl))
  rw [pyStem_spec f1 t1 ht1 hd1, pyStem_spec f2 t2 ht2 hd2] at heq
  have hdq := congrArg String.data heq
  rw [String.data_append, String.data_append] at hdq
  have ht12 : t1 = t2 := List.append_cancel_right hdq
  exact stringDataInj (by rw [hd1, hd2, ht12])

/-- Claim C5: for a skill whose scripts directory holds at least one *.py
file, generate_plugin.py writes into the commands directory exactly one .md
file per script, named after the script stem (assuming the directory listing
holds pairwise distinct names, none of which is the bare name .py); for a
skill with no such scripts it writes exactly the generic setup.md and
help.md. -/
theorem claimC5 (files : List String) :
    ((files.filter (fun f => pyEndsWith f (".py"))) ≠ [] →
      (files.filter (fun f => pyEndsWith f (".py"))).Nodup →
      (".py") ∉ files.filter (fun f => pyEndsWith f (".py")) →
      generatedCommandFiles (some files)
          = (files.filter (fun f => pyEndsWith f (".py"))).map (fun f => pyStem f ++ (".md"))
        ∧ (generatedCommandFiles (some files)).length
            = (files.filter (fun f => pyEndsWith f (".py"))).length
        ∧ (generatedCommandFiles (some files)).Nodup
        ∧ ∀ f ∈ files.filter (fun f => pyEndsWith f (".py")),
            (pyStem f ++ (".md")) ∈ generatedCommandFiles (some files))
    ∧ ((files.filter (fun f => pyEndsWith f (".py"))) = [] →
        generatedCommandFiles (some files) = [("setup.md"), ("help.md")])
    ∧ generatedCommandFiles none = [("setup.md"), ("help.md")] := by
  refine ⟨?_, ?_, rfl⟩
  · intro hne hnd hnpy
    have hval : generatedCommandFiles (some files)
        = (files.filter (fun f => pyEndsWith f (".py"))).map (fun f => pyStem f ++ (".md")) := by
      simp only [generatedCommandFiles]
      rw [if_neg (fun h => hne (List.isEmpty_iff.1 h))]
    refine ⟨hval, by rw [hval, List.length_map], ?_, ?_⟩
    · rw [hval]
      refine List.Nodup.map_on ?_ hnd
      intro f1 hf1 f2 hf2 hfe
      have e1 := (List.mem_filter.1 hf1).2
      have e2 := (List.mem_filter.1 hf2).2
      exact pyStem_md_inj f1 f2 e1 e2
        (fun h => hnpy (h ▸ hf1)) (fun h => hnpy (h ▸ hf2)) hfe
    · intro f hf
      rw [hval]
      exact List.mem_map_of_mem _ hf
  · intro hemp
    simp [generatedCommandFiles, hemp]

/-- Claim C5 witness: the example skill with scripts/generate_animation.py
yields exactly the command file generate_animation.md. -/
theorem claimC5_witness :
    generatedCommandFiles (some [("generate_animation.py")])
        = ((["generate_animation.py"] : List String).filter
            (fun f => pyEndsWith f (".py"))).map (fun f => pyStem f ++ (".md"))
      ∧ (generatedCommandFiles (some [("generate_animation.py")])).length
          = ((["generate_animation.py"] : List String).filter
              (fun f => pyEndsWith f (".py"))).length
      ∧ (generatedCommandFiles (some [("generate_animation.py")])).Nodup
      ∧ ∀ f ∈ (["generate_animation.py"] : List String).filter
            (fun f => pyEndsWith f (".py")),
          (pyStem f ++ (".md")) ∈ generatedCommandFiles (some [("generate_animation.py")]) :=
  (claimC5 [("generate_animation.py")]).1 (by decide) (by decide) (by decide)

theorem dash_append_ne (s1 s2 f1 f2 : String)
    (hp1 : noDashPrefix s1 s2 = true) (hp2 : noDashPrefix s2 s1 = true) :
    s1 ++ ("-") ++ f1 ≠ s2 ++ ("-") ++ f2 := by
  intro h
  have hd : (s1 ++ ("-")).data ++ f1.data = (s2 ++ ("-")).data ++ f2.data := by
    rw [← String.data_append, ← String.data_append, h]
  rcases List.append_eq_append_iff.1 hd with ⟨a, ha, -⟩ | ⟨a, ha, -⟩
  · have hpre : (s1 ++ ("-")).data.isPrefixOf ((s2 ++ ("-")).data) = true :=
      isPrefixOfIff.2 ⟨a, ha.symm⟩
    rw [noDashPrefix, hpre] at hp1
    exact absurd hp1 (by decide)
  · have hpre : (s2 ++ ("-")).data.isPrefixOf ((s1 ++ ("-")).data) = true :=
      isPrefixOfIff.2 ⟨a, ha.symm⟩
    rw [noDashPrefix, hpre] at hp2
    exact absurd hp2 (by decide)

theorem pairwise_extract (l : List String) (hall : pairwiseDistinctCommandNames l = true)
    (s1 s2 : String) (h1 : s1 ∈ l) (h2 : s2 ∈ l) (hne : s1 ≠ s2) :
    noDashPrefix s1 s2 = true := by
  have ha := List.all_eq_true.1 (List.all_eq_true.1 hall s1 h1) s2 h2
  rw [Bool.or_eq_true] at ha
  rcases ha with he | hb
  · exact absurd (eq_of_beq he) hne
  · exact hb

theorem BUNDLES_pairwise :
    (BUNDLES.all (fun bc => pairwiseDistinctCommandNames bc.2.skills)) = true := by decide

/-- Claim C8: for every bundle, generate_bundle.py copies each member skill
command file f into the bundle commands directory as skill-f, and for the
hard-coded BUNDLES table these destination names never collide across
distinct member skills, whatever the command file names are. -/
theorem claimC8 (bn : String) (cfg : BundleConfig) (hb : (bn, cfg) ∈ BUNDLES)
    (individualCommands : String → Option (List String)) :
    (∀ d, d ∈ aggregate_commands cfg individualCommands ↔
      ∃ skill, skill ∈ cfg.skills ∧ ∃ f, f ∈ mdFilter (individualCommands skill) ∧
        d = skill ++ ("-") ++ f)
    ∧ (∀ s1 s2, s1 ∈ cfg.skills → s2 ∈ cfg.skills → s1 ≠ s2 →
        ∀ f1 f2, s1 ++ ("-") ++ f1 ≠ s2 ++ ("-") ++ f2) := by
  constructor
  · intro d
    simp only [aggregate_commands, List.mem_flatMap, List.mem_map]
    constructor
    · rintro ⟨skill, hs, f, hf, rfl⟩
      exact ⟨skill, hs, f, hf, rfl⟩
    · rintro ⟨skill, hs, f, hf, rfl⟩
      exact ⟨skill, hs, f, hf, rfl⟩
  · intro s1 s2 h1 h2 hne f1 f2
    have hall : pairwiseDistinctCommandNames cfg.skills = true :=
      List.all_eq_true.1 BUNDLES_pairwise _ hb
    exact dash_append_ne s1 s2 f1 f2
      (pairwise_extract _ hall s1 s2 h1 h2 hne)
      (pairwise_extract _ hall s2 s1 h2 h1 (Ne.symm hne))

/-- Claim C8 witness: inside the meta-skills bundle, command files of the two
member skills keep distinct destination names even for equal file names. -/
theorem claimC8_witness :
    ("web3d-integration-patterns") ++ ("-") ++ ("a.md")
      ≠ ("modern-web-design") ++ ("-") ++ ("a.md") :=
  (claimC8 ("meta-skills") metaBundleConfig (by decide) (fun _ => none)).2
    ("web3d-integration-patterns") ("modern-web-design") (by decide) (by decide)
    (by decide) ("a.md") ("a.md")

theorem validateEntries_safe (pe : String → Bool) (es : List JValue)
    (h : es.all entrySafe = true) :
    ∀ i, ∃ r, validateEntries pe i es = Except.ok r := by
  induction es with
  | nil => exact fun i => ⟨[], rfl⟩
  | cons e rest ih =>
    intro i
    rw [List.all_cons, Bool.and_eq_true] at h
    have hee : ∃ a, validate_plugin_entry pe i e = Except.ok a := by
      cases hres : validate_plugin_entry pe i e with
      | ok a => exact ⟨a, rfl⟩
      | error u =>
        exfalso
        cases e with
        | obj fields =>
          cases hs : getKey fields ("source") with
          | none => simp [validate_plugin_entry, hs] at hres
          | some v =>
            cases v with
            | str src =>
              by_cases h1 : pyStartsWith src ("./") = true
              · by_cases h2 : pe (pyLstripDotSlash src) = true
                · simp [validate_plugin_entry, hs, h1, h2] at hres
                · simp [validate_plugin_entry, hs, h1, h2] at hres
              · simp [validate_plugin_entry, hs, h1] at hres
            | num n => simp [entrySafe, hs] at h
            | boolean b => simp [entrySafe, hs] at h
            | null => simp [entrySafe, hs] at h
            | arr es2 => simp [entrySafe, hs] at h
            | obj fs2 => simp [entrySafe, hs] at h
        | str s => simp [entrySafe] at h
        | num n => simp [entrySafe] at h
        | boolean b => simp [entrySafe] at h
        | null => simp [entrySafe] at h
        | arr es2 => simp [entrySafe] at h
    obtain ⟨a, ha⟩ := hee
    obtain ⟨b, hb⟩ := ih h.2 (i + 1)
    exact ⟨a ++ b, by simp [validateEntries, ha, hb]⟩

theorem validate_marketplace_json_safe (mkt : Option (Option Manifest))
    (pe : String → Bool) (hsafe : marketplaceSafe mkt = true) :
    ∃ r, validate_marketplace_json mkt pe = Except.ok r := by
  cases mkt with
  | none => exact ⟨_, rfl⟩
  | some o =>
    cases o with
    | none => exact ⟨_, rfl⟩
    | some m =>
      cases hres : validate_marketplace_json (some (some m)) pe with
      | ok r => exact ⟨r, rfl⟩
      | error u =>
        exfalso
        cases hp : getKey m ("plugins") with
        | none => simp [validate_marketplace_json, hp] at hres
        | some v =>
          cases v with
          | arr es =>
            have hs : es.all entrySafe = true := by
              simpa [marketplaceSafe, hp] using hsafe
            obtain ⟨r, hr⟩ := validateEntries_safe pe es hs 0
            simp [validate_marketplace_json, hp, hr] at hres
          | str s => simp [validate_marketplace_json, hp] at hres
          | num n => simp [validate_marketplace_json, hp] at hres
          | boolean b => simp [validate_marketplace_json, hp] at hres
          | null => simp [validate_marketplace_json, hp] at hres
          | obj fs => simp [validate_marketplace_json, hp] at hres

theorem validate_plugin_missing (p : VPluginDir) (hm : p.manifest = none) :
    (p.name ++ (": plugin.json not found")) ∈ (validate_plugin p).1 := by
  simp [validate_plugin, hm]

theorem validatePluginsFold_mem (l : List VPluginDir) (p : VPluginDir) (hp : p ∈ l)
    (msg : String) (hmsg : msg ∈ (validate_plugin p).1) :
    msg ∈ (validatePluginsFold l).1 := by
  induction l with
  | nil => exact absurd hp (List.not_mem_nil _)
  | cons d rest ih =>
    rcases List.mem_cons.1 hp with rfl | h2
    · exact List.mem_append_left _ hmsg
    · exact List.mem_append_right _ (ih h2)

theorem validatePluginGroup_mem (ds : List VPluginDir) (w : String) (p : VPluginDir)
    (hp : p ∈ ds) (hdir : p.isDir = true) (msg : String)
    (hmsg : msg ∈ (validate_plugin p).1) :
    msg ∈ (validatePluginGroup (some ds) w).1 :=
  validatePluginsFold_mem _ p (List.mem_filter.2 ⟨hp, hdir⟩) msg hmsg

/-- Claim C4: on every marketplace layout in which some plugin directory
under the individual or bundles group lacks .claude-plugin/plugin.json,
validate_marketplace.py records an error naming that plugin directory and
exits with status 1 (assuming the marketplace.json entries are well formed
enough for the validator not to crash before reaching the plugin checks). -/
theorem claimC4 (fs : ValidatorFS) (p : VPluginDir)
    (hp : (∃ ds, fs.individual = some ds ∧ p ∈ ds) ∨
          (∃ ds, fs.bundles = some ds ∧ p ∈ ds))
    (hdir : p.isDir = true) (hman : p.manifest = none)
    (hsafe : marketplaceSafe fs.marketplace = true) :
    ∃ errs warns, validateRun fs = Except.ok (errs, warns)
      ∧ (p.name ++ (": plugin.json not found")) ∈ errs
      ∧ validateExitCode fs = 1 := by
  obtain ⟨⟨mktE, mktW⟩, hmkt⟩ := validate_marketplace_json_safe fs.marketplace fs.pathExists hsafe
  have hrun : validateRun fs = Except.ok
      (mktE ++ (validatePluginGroup fs.individual (("No individual plugins directory found"))).1
            ++ (validatePluginGroup fs.bundles (("No bundles directory found"))).1,
       mktW ++ (validatePluginGroup fs.individual (("No individual plugins directory found"))).2
            ++ (validatePluginGroup fs.bundles (("No bundles directory found"))).2) := by
    simp only [validateRun, hmkt]
  have hmem : (p.name ++ (": plugin.json not found")) ∈
      mktE ++ (validatePluginGroup fs.individual (("No individual plugins directory found"))).1
           ++ (validatePluginGroup fs.bundles (("No bundles directory found"))).1 := by
    rcases hp with ⟨ds, hds, hpin⟩ | ⟨ds, hds, hpin⟩
    · refine List.mem_append_left _ (List.mem_append_right _ ?_)
      rw [hds]
      exact validatePluginGroup_mem ds _ p hpin hdir _ (validate_plugin_missing p hman)
    · refine List.mem_append_right _ ?_
      rw [hds]
      exact validatePluginGroup_mem ds _ p hpin hdir _ (validate_plugin_missing p hman)
  refine ⟨_, _, hrun, hmem, ?_⟩
  have hne : (mktE ++ (validatePluginGroup fs.individual
        (("No individual plugins directory found"))).1
      ++ (validatePluginGroup fs.bundles (("No bundles directory found"))).1).isEmpty ≠ true := by
    intro h
    rw [List.isEmpty_iff.1 h] at hmem
    exact absurd hmem (List.not_mem_nil _)
  simp only [validateExitCode, hrun]
  rw [if_neg hne]

/-- Claim C4 witness: one individual plugin directory without a manifest, no
marketplace.json, no bundles directory. -/
theorem claimC4_witness :
    ∃ errs warns, validateRun
        ⟨none, some [⟨("broken-plugin"), true, false, none, false, 0, none, none⟩],
         none, fun _ => false⟩ = Except.ok (errs, warns)
      ∧ (("broken-plugin") ++ (": plugin.json not found")) ∈ errs
      ∧ validateExitCode
          ⟨none, some [⟨("broken-plugin"), true, false, none, false, 0, none, none⟩],
           none, fun _ => false⟩ = 1 :=
  claimC4 _ ⟨("broken-plugin"), true, false, none, false, 0, none, none⟩
    (Or.inl ⟨_, rfl, List.mem_singleton.2 rfl⟩) rfl rfl rfl

theorem collectPlugins_ok (mkEntry : String → Manifest → Except Unit Manifest)
    (P : String → Manifest → Prop) (ds : List MPluginDir)
    (hgood : ∀ d, d ∈ ds → d.isDir = true → ∀ x, d.manifest = some x →
      ∃ m, x = some m ∧ ∃ e, mkEntry d.name m = Except.ok e)
    (hP : ∀ n m e, mkEntry n m = Except.ok e → P n e) :
    ∃ es, collectPlugins mkEntry ds = Except.ok es
      ∧ es.length = (ds.filter (fun d => d.isDir && d.manifest.isSome)).length
      ∧ ∀ e ∈ es, ∃ d, d ∈ ds ∧ d.isDir = true ∧ P d.name e := by
  induction ds with
  | nil => exact ⟨[], rfl, rfl, by simp⟩
  | cons d rest ih =>
    obtain ⟨es, hcol, hlen, hmem⟩ :=
      ih (fun d2 h2 => hgood d2 (List.mem_cons_of_mem _ h2))
    by_cases hdir : d.isDir = true
    · cases hman : d.manifest with
      | none =>
        refine ⟨es, ?_, ?_, ?_⟩
        · simp only [collectPlugins, hdir, if_true, hman]
          exact hcol
        · rw [hlen]
          simp [hman, hdir]
        · intro e he
          obtain ⟨d2, hd2, hdd, hPP⟩ := hmem e he
          exact ⟨d2, List.mem_cons_of_mem _ hd2, hdd, hPP⟩
      | some x =>
        obtain ⟨m, rfl, e, hmk⟩ := hgood d (List.mem_cons_self _ _) hdir x hman
        refine ⟨e :: es, ?_, ?_, ?_⟩
        · simp only [collectPlugins, hdir, if_true, hman, hmk, hcol]
        · simp [hman, hdir, hlen]
        · intro e2 he2
          rcases List.mem_cons.1 he2 with rfl | h2
          · exact ⟨d, List.mem_cons_self _ _, hdir, hP _ _ _ hmk⟩
          · obtain ⟨d2, hd2, hdd, hPP⟩ := hmem e2 h2
            exact ⟨d2, List.mem_cons_of_mem _ hd2, hdd, hPP⟩
    · have hdf : d.isDir = false := by
        revert hdir
        cases d.isDir <;> simp
      refine ⟨es, ?_, ?_, ?_⟩
      · simp only [collectPlugins, hdf]
        exact hcol
      · rw [hlen]
        simp [hdf]
      · intro e he
        obtain ⟨d2, hd2, hdd, hPP⟩ := hmem e he
        exact ⟨d2, List.mem_cons_of_mem _ hd2, hdd, hPP⟩

theorem collectGroup_ok (mkEntry : String → Manifest → Except Unit Manifest)
    (P : String → Manifest → Prop) (o : Option (List MPluginDir))
    (hgood : ∀ d, d ∈ o.getD [] → d.isDir = true → ∀ x, d.manifest = some x →
      ∃ m, x = some m ∧ ∃ e, mkEntry d.name m = Except.ok e)
    (hP : ∀ n m e, mkEntry n m = Except.ok e → P n e) :
    ∃ es, collectGroup mkEntry o = Except.ok es
      ∧ es.length = countManifests o
      ∧ ∀ e ∈ es, ∃ d, d ∈ o.getD [] ∧ d.isDir = true ∧ P d.name e := by
  cases o with
  | none => exact ⟨[], rfl, rfl, by simp⟩
  | some ds => exact collectPlugins_ok mkEntry P ds hgood hP

theorem individualEntry_source (n : String) (m e : Manifest)
    (h : individualEntry n m = Except.ok e) :
    getKey e ("source") = some (JValue.str (("./individual/") ++ n)) := by
  cases hn : getKey m ("name") with
  | none =>
    simp only [individualEntry, hn] at h
    exact Except.noConfusion h
  | some nm =>
    simp only [individualEntry, hn] at h
    obtain rfl := (Except.ok.inj h).symm
    rfl

theorem bundleEntry_source (n : String) (m e : Manifest)
    (h : bundleEntry n m = Except.ok e) :
    getKey e ("source") = some (JValue.str (("./bundles/") ++ n)) := by
  cases hn : getKey m ("name") with
  | none =>
    simp only [bundleEntry, hn] at h
    exact Except.noConfusion h
  | some nm =>
    simp only [bundleEntry, hn] at h
    obtain rfl := (Except.ok.inj h).symm
    rfl

/-- Claim C1 (amended): when every plugin directory carrying a
.claude-plugin/plugin.json has one that parses as a JSON object with a name
key, generate_marketplace.py produces a marketplace.json whose plugins array
has exactly one entry per such directory, and every entry source resolves to
an existing plugin directory under the scanned plugins root. -/
theorem claimC1 (fs : MarketplaceFS)
    (h : ∀ d, (d ∈ fs.individual.getD [] ∨ d ∈ fs.bundles.getD []) → d.isDir = true →
      ∀ x, d.manifest = some x → ∃ m, x = some m ∧ ∃ v, getKey m ("name") = some v) :
    ∃ (mk : Manifest) (entries : List Manifest), generate_marketplace fs = Except.ok mk
      ∧ getKey mk ("plugins") = some (JValue.arr (entries.map JValue.obj))
      ∧ entries.length = countManifests fs.individual + countManifests fs.bundles
      ∧ ∀ e ∈ entries, ∃ s, getKey e ("source") = some (JValue.str s)
          ∧ sourceResolves fs s := by
  have hgood1 : ∀ d, d ∈ fs.individual.getD [] → d.isDir = true →
      ∀ x, d.manifest = some x →
      ∃ m, x = some m ∧ ∃ e, individualEntry d.name m = Except.ok e := by
    intro d hd hdir x hx
    obtain ⟨m, rfl, v, hv⟩ := h d (Or.inl hd) hdir x hx
    refine ⟨m, rfl, ?_⟩
    simp only [individualEntry, hv]
    exact ⟨_, rfl⟩
  have hgood2 : ∀ d, d ∈ fs.bundles.getD [] → d.isDir = true →
      ∀ x, d.manifest = some x →
      ∃ m, x = some m ∧ ∃ e, bundleEntry d.name m = Except.ok e := by
    intro d hd hdir x hx
    obtain ⟨m, rfl, v, hv⟩ := h d (Or.inr hd) hdir x hx
    refine ⟨m, rfl, ?_⟩
    simp only [bundleEntry, hv]
    exact ⟨_, rfl⟩
  obtain ⟨ind, hind, hindlen, hindmem⟩ := collectGroup_ok individualEntry
    (fun n e => getKey e ("source") = some (JValue.str (("./individual/") ++ n)))
    fs.individual hgood1 individualEntry_source
  obtain ⟨bun, hbun, hbunlen, hbunmem⟩ := collectGroup_ok bundleEntry
    (fun n e => getKey e ("source") = some (JValue.str (("./bundles/") ++ n)))
    fs.bundles hgood2 bundleEntry_source
  refine ⟨[(("name"), JValue.str ("claude-design-skillstack")),
      (("owner"), JValue.obj
        [(("name"), JValue.str ("Claude Design Skillstack")),
         (("url"), JValue.str ("https://github.com/freshtechbro/claudedesignskills"))]),
      (("metadata"), JValue.obj
        [(("description"), JValue.str ("Professional design agency skillstack for 3D/WebGL, animation, and modern web development. Comprehensive collection covering Three.js, GSAP, React Three Fiber, Framer Motion, Babylon.js, and more. Includes 22 individual plugins + 5 category bundles.")),
         (("version"), JValue.str ("1.0.0")),
         (("pluginRoot"), JValue.str ("./.claude/plugins")),
         (("homepage"), JValue.str ("https://github.com/freshtechbro/claudedesignskills")),
         (("repository"), JValue.str ("https://github.com/freshtechbro/claudedesignskills"))]),
      (("plugins"), JValue.arr ((ind ++ bun).map JValue.obj))],
    ind ++ bun, ?_, rfl, ?_, ?_⟩
  · simp only [generate_marketplace, hind, hbun]
  · rw [List.length_append, hindlen, hbunlen]
  · intro e he
    rcases List.mem_append.1 he with he | he
    · obtain ⟨d, hd, hdd, hPP⟩ := hindmem e he
      refine ⟨(("./individual/") ++ d.name), hPP, Or.inl ⟨d.name, ?_, rfl⟩⟩
      exact List.mem_map.2 ⟨d, List.mem_filter.2 ⟨hd, hdd⟩, rfl⟩
    · obtain ⟨d, hd, hdd, hPP⟩ := hbunmem e he
      refine ⟨(("./bundles/") ++ d.name), hPP, Or.inr ⟨d.name, ?_, rfl⟩⟩
      exact List.mem_map.2 ⟨d, List.mem_filter.2 ⟨hd, hdd⟩, rfl⟩

/-- Claim C1 counterexample: a plugin directory whose plugin.json is the
empty JSON object.  manifest["name"] raises KeyError, generate_marketplace.py
terminates with a traceback and writes no marketplace.json at all, so the
plugins array does not have one entry per manifest-bearing directory. -/
theorem claimC1_counterexample :
    generate_marketplace ⟨some [⟨("p1"), true, some (some [])⟩], some []⟩
      = Except.error () := rfl

/-- Claim C1 witness: one valid individual plugin directory, no bundles
directory. -/
theorem claimC1_witness :
    ∃ (mk : Manifest) (entries : List Manifest),
      generate_marketplace ⟨some [⟨("threejs-webgl"), true,
          some (some [(("name"), JValue.str ("threejs-webgl"))])⟩], none⟩ = Except.ok mk
      ∧ getKey mk ("plugins") = some (JValue.arr (entries.map JValue.obj))
      ∧ entries.length
          = countManifests (some [⟨("threejs-webgl"), true,
              some (some [(("name"), JValue.str ("threejs-webgl"))])⟩])
            + countManifests none
      ∧ ∀ e ∈ entries, ∃ s, getKey e ("source") = some (JValue.str s)
          ∧ sourceResolves ⟨some [⟨("threejs-webgl"), true,
              some (some [(("name"), JValue.str ("threejs-webgl"))])⟩], none⟩ s := by
  refine claimC1 _ ?_
  intro d hd hdir x hx
  rcases hd with hd | hd
  · have hd2 : d = ⟨("threejs-webgl"), true,
        some (some [(("name"), JValue.str ("threejs-webgl"))])⟩ := by
      simpa using hd
    subst hd2
    obtain rfl := (Option.some.inj hx).symm
    exact ⟨[(("name"), JValue.str ("threejs-webgl"))], rfl,
      JValue.str ("threejs-webgl"), rfl⟩
  · exact absurd hd (List.not_mem_nil _)

/-- Claim C7 (amended): every marketplace script exits 0 on success and 1 on
a validation failure or a generation exception, except that in --all mode
generate_plugin.py and generate_bundle.py catch each per-item generation
exception, keep going and exit 0 (provided the top-level skills directory
scan itself succeeds). -/
theorem claimC7 :
    (∀ (fs : GenPluginFS) (name e : String), name ≠ ("--all") →
      generate_plugin_run fs name = Except.error e →
      generate_plugin_main_exit [name] fs = 1)
    ∧ (∀ (fs : GenPluginFS) (name : String) (out : GeneratedPlugin), name ≠ ("--all") →
      generate_plugin_run fs name = Except.ok out →
      generate_plugin_main_exit [name] fs = 0)
    ∧ (∀ (fs : GenPluginFS) (ds : List SkillDirFS), fs.skillsDir = some ds →
      generate_plugin_main_exit [("--all")] fs = 0)
    ∧ (∀ (fs : ValidatorFS) (errs warns : List String),
      validateRun fs = Except.ok (errs, warns) →
      validateExitCode fs = (if errs.isEmpty then 0 else 1))
    ∧ (∀ (fs : MarketplaceFS) (m : Manifest), generate_marketplace fs = Except.ok m →
      generate_marketplace_main_exit fs = 0)
    ∧ (∀ (fs : MarketplaceFS) (u : Unit), generate_marketplace fs = Except.error u →
      generate_marketplace_main_exit fs = 1)
    ∧ generate_bundle_main_exit [("--all")] = 0
    ∧ (∀ bn, bn ≠ ("--all") → (assocGet BUNDLES bn).isSome = false →
      generate_bundle_main_exit [bn] = 1)
    ∧ (∀ bn, bn ≠ ("--all") → (assocGet BUNDLES bn).isSome = true →
      generate_bundle_main_exit [bn] = 0) := by
  refine ⟨?_, ?_, ?_, ?_, ?_, ?_, rfl, ?_, ?_⟩
  · intro fs name e hne hrr
    have hb : (name == ("--all")) = false := beq_eq_false_iff_ne.2 hne
    simp [generate_plugin_main_exit, hb, hrr]
  · intro fs name out hne hrr
    have hb : (name == ("--all")) = false := beq_eq_false_iff_ne.2 hne
    simp [generate_plugin_main_exit, hb, hrr]
  · intro fs ds hds
    simp [generate_plugin_main_exit, hds]
  · intro fs errs warns hrr
    simp [validateExitCode, hrr]
  · intro fs m hrr
    simp [generate_marketplace_main_exit, hrr]
  · intro fs u hrr
    simp [generate_marketplace_main_exit, hrr]
  · intro bn hne hnb
    have hb : (bn == ("--all")) = false := beq_eq_false_iff_ne.2 hne
    simp [generate_bundle_main_exit, hb, hnb]
  · intro bn hne hnb
    have hb : (bn == ("--all")) = false := beq_eq_false_iff_ne.2 hne
    simp [generate_bundle_main_exit, hb, hnb]

/-- Claim C7 counterexample: in --all mode a generation exception (missing
SKILL.md) is caught and the process still exits 0, contradicting the claim
that a run in which a generation step raises an exception exits 1. -/
theorem claimC7_counterexample :
    generate_plugin_run ⟨some [⟨("broken"), none, none⟩]⟩ ("broken")
        = Except.error (("SKILL.md not found in .claude/skills/") ++ ("broken"))
      ∧ generate_plugin_main_exit [("--all")] ⟨some [⟨("broken"), none, none⟩]⟩ = 0 :=
  ⟨rfl, rfl⟩

/-- Claim C7 witness: single-skill failure exits 1, single-skill success
exits 0, an --all run exits 0, a known bundle exits 0. -/
theorem claimC7_witness :
    generate_plugin_main_exit [("nope")] ⟨some []⟩ = 1
      ∧ generate_plugin_main_exit [("threejs-webgl")]
          ⟨some [⟨("threejs-webgl"), some (some []), none⟩]⟩ = 0
      ∧ generate_plugin_main_exit [("--all")] ⟨some []⟩ = 0
      ∧ generate_bundle_main_exit [("core-3d-animation")] = 0 := by
  obtain ⟨h1, h2, h3, -, -, -, -, -, h9⟩ := claimC7
  exact ⟨h1 ⟨some []⟩ ("nope") (("SKILL.md not found in .claude/skills/") ++ ("nope"))
      (by decide) rfl,
    h2 ⟨some [⟨("threejs-webgl"), some (some []), none⟩]⟩ ("threejs-webgl")
      ⟨pluginManifest ("threejs-webgl") [], generatedCommandFiles none⟩ (by decide) rfl,
    h3 ⟨some []⟩ [] rfl,
    h9 ("core-3d-animation") (by decide) (by decide)⟩
